import Mathlib

/-!
Verification of the modelipy document model and pretty-printing engine.

This file shallowly embeds the data model (`misc.py`, `component.py`,
`model.py`) and the rendering engine (`output.py`) of the modelipy
repository, and proves the specified layout, builder and purity
properties against that embedding.

Modelling conventions:
* Python's `StringIO`/`TextIO` stream is a `String` accumulator inside the
  printer state `PP`; `stream.write` returns the number of characters
  written, which is the Lean `String.length` of the written text.
* Numeric scalars are modelled as `Int` (the claims under verification
  never exercise float formatting).
* Python `dict[str, Any]` is an insertion-ordered association list
  `List (String × Value)`.
* Python `list` and `tuple` are both represented by the `Value.arr`
  constructor: the renderer (`write_annotation`) treats them identically,
  and `write_key_value` only ever receives tuples in its declared domain.
* A raised Python exception (failed `assert`, `KeyError`, `ValueError`,
  `NotImplementedError`, unsupported shape) is `Option.none` /
  `Except.error`.  Builder operations that can raise after partially
  mutating their model return the model state as of the raise, paired
  with the `Except` outcome.
-/

namespace Modelipy

/-- Flag set `AssignFlags` of `misc.py` (an `enum.Flag`): a subset of
\x7bEach, Final, Redeclare, Replaceable\x7d, modelled as four booleans. -/
structure AssignFlags where
  isEach : Bool := false
  isFinal : Bool := false
  isRedeclare : Bool := false
  isReplaceable : Bool := false
  deriving DecidableEq, Repr

/-- Union of two flag sets, Python `a | b` on `enum.Flag` values. -/
def AssignFlags.union (a b : AssignFlags) : AssignFlags :=
  ⟨a.isEach || b.isEach, a.isFinal || b.isFinal,
   a.isRedeclare || b.isRedeclare, a.isReplaceable || b.isReplaceable⟩

/-- The recursive "modification value" type: everything that can appear as
the value of a modification-map or annotation entry in the Python tree.
`none`/`boolean`/`integer`/`string` are the primitive scalars, `arr` is a
Python list or tuple, `dict` an ordered `dict[str, Any]`, and `assign`
an instance of the `Assign` wrapper class of `misc.py` (fields in
declaration order: value, init, fmt, flags, description, annotation,
type). -/
inductive Value where
  | none
  | boolean (b : Bool)
  | integer (n : Int)
  | string (s : String)
  | arr (elems : List Value)
  | dict (entries : List (String × Value))
  | assign (value : Option Value) (init : List (String × Value)) (fmt : String)
      (flags : Option AssignFlags) (descr : Option String)
      (anno : List (String × Value)) (type : Option String)

/-- Flag set `ComponentFlags` of `component.py`. -/
structure ComponentFlags where
  isFinal : Bool := false
  isInner : Bool := false
  isOuter : Bool := false
  isReplaceable : Bool := false
  deriving DecidableEq, Repr

/-- Union of two component flag sets (Python `|` on `enum.Flag`). -/
def ComponentFlags.union (a b : ComponentFlags) : ComponentFlags :=
  ⟨a.isFinal || b.isFinal, a.isInner || b.isInner,
   a.isOuter || b.isOuter, a.isReplaceable || b.isReplaceable⟩

/-- Flag set `ModelFlags` of `model.py`. -/
structure ModelFlags where
  isFinal : Bool := false
  isEncapsulated : Bool := false
  isPartial : Bool := false
  isReplaceable : Bool := false
  deriving DecidableEq, Repr

/-- Union of two model flag sets (Python `|` on `enum.Flag`). -/
def ModelFlags.union (a b : ModelFlags) : ModelFlags :=
  ⟨a.isFinal || b.isFinal, a.isEncapsulated || b.isEncapsulated,
   a.isPartial || b.isPartial, a.isReplaceable || b.isReplaceable⟩

/-- The `Flux` enum of `component.py`. -/
inductive Flux where
  | flow
  | stream
  deriving DecidableEq, Repr

/-- The `.value` string of a `Flux` member. -/
def Flux.value : Flux → String
  | .flow => "flow"
  | .stream => "stream"

/-- The `Causality` enum of `component.py`. -/
inductive Causality where
  | input
  | output
  deriving DecidableEq, Repr

/-- The `.value` string of a `Causality` member. -/
def Causality.value : Causality → String
  | .input => "input"
  | .output => "output"

/-- The `Variability` enum of `component.py`. -/
inductive Variability where
  | constant
  | parameter
  | discrete
  deriving DecidableEq, Repr

/-- The `.value` string of a `Variability` member. -/
def Variability.value : Variability → String
  | .constant => "constant"
  | .parameter => "parameter"
  | .discrete => "discrete"

/-!
Python string conversion.  The renderer interpolates values into f-strings
and `join`s, which calls `str()`.  `str` on scalars is exact; on
containers Python falls back to `repr`, which quotes inner strings.  The
single `arr` constructor stands for both lists and tuples, so container
`repr` follows the tuple form here (including the trailing comma of a
1-tuple); no verified claim exercises container interpolation.  `str` of
an `Assign` is its `__str__`, i.e. `format(self.value, self.fmt)`; the
format-spec mini-language for non-empty `fmt` is outside this model (all
claims use the default `fmt = ""`, where `format(v, "") = str(v)`).
`repr` of an `Assign` is the default object repr, whose memory address is
environment-dependent and outside the model.
-/

mutual

/-- Python `str(v)`. -/
def pyStr : Value → String
  | .none => "None"
  | .boolean b => if b then "True" else "False"
  | .integer n => toString n
  | .string s => s
  | .arr [e] => "(" ++ pyRepr e ++ ",)"
  | .arr es => "(" ++ pyReprJoin es ++ ")"
  | .dict entries => "\x7b" ++ pyDictJoin entries ++ "\x7d"
  | .assign v _ _ _ _ _ _ =>
    match v with
    | Option.some v' => pyStr v'
    | Option.none => "None"

/-- Python `repr(v)`. -/
def pyRepr : Value → String
  | .none => "None"
  | .boolean b => if b then "True" else "False"
  | .integer n => toString n
  | .string s => "'" ++ s ++ "'"
  | .arr [e] => "(" ++ pyRepr e ++ ",)"
  | .arr es => "(" ++ pyReprJoin es ++ ")"
  | .dict entries => "\x7b" ++ pyDictJoin entries ++ "\x7d"
  | .assign _ _ _ _ _ _ _ => "<Assign>"

/-- Python `", ".join(repr(e) for e in es)`. -/
def pyReprJoin : List Value → String
  | [] => ""
  | [e] => pyRepr e
  | e :: rest => pyRepr e ++ ", " ++ pyReprJoin rest

/-- The entry list of a dict `repr`. -/
def pyDictJoin : List (String × Value) → String
  | [] => ""
  | [(k, v)] => "'" ++ k ++ "': " ++ pyRepr v
  | (k, v) :: rest => "'" ++ k ++ "': " ++ pyRepr v ++ ", " ++ pyDictJoin rest

/-- Python `sep.join(str(e) for e in es)`. -/
def pyStrJoin (sep : String) : List Value → String
  | [] => ""
  | [e] => pyStr e
  | e :: rest => pyStr e ++ sep ++ pyStrJoin sep rest

end

/-- Python `format(v, fmt)` for an optional primitive, as used by
`Assign.__format__` and `Assign.__str__`.  All claims use the default
`fmt = ""`, for which `format(v, "") = str(v)`; non-empty format specs
are outside the model. -/
def pyFormat (v : Option Value) (_fmt : String) : String :=
  match v with
  | Option.some v' => pyStr v'
  | Option.none => "None"

/-- Iterating a Python value and `str`-ing each element, as done by
`",".join(str(x) for x in e)` in `write_annotation`'s list-of-lists
branch: a list/tuple yields its elements, a string its characters, a
dict its keys; other values are not iterable (`TypeError`). -/
def pyIterStrs : Value → Option (List String)
  | .arr xs => some (xs.map pyStr)
  | .string s => some (s.data.map (fun c => String.singleton c))
  | .dict entries => some (entries.map Prod.fst)
  | _ => Option.none

/-- Python `n * s` for an `int` and a `str` (empty when `n ≤ 0`). -/
def pyStrMul (n : Int) (s : String) : String :=
  if n ≤ 0 then "" else String.join (List.replicate n.toNat s)

/-- The `PrettyPrinter` state of `output.py`: the output stream contents,
the indentation unit, the (advisory, never read) width, and the
`charcount` / `curpos` / `indent` counters. -/
structure PP where
  stream : String
  indentation : String
  width : Int
  charcount : Nat
  curpos : Nat
  indent : Int
  deriving DecidableEq, Repr

/-- The text that `PrettyPrinter._write(s, indent=ind)` hands to the
stream: `s`, prefixed by `self.indent * self.indentation` when `ind`. -/
def PP.outText (st : PP) (s : String) (ind : Bool) : String :=
  if ind then pyStrMul st.indent st.indentation ++ s else s

/-- The `PrettyPrinter.write`: `_write` the text and advance `curpos` by the
number of characters written. -/
def PP.write (st : PP) (s : String) (ind : Bool) : PP :=
  let o := st.outText s ind
  { st with stream := st.stream ++ o, charcount := st.charcount + o.length,
            curpos := st.curpos + o.length }

/-- The `PrettyPrinter.print`: `_write` the text plus a newline and reset
`curpos` to column zero. -/
def PP.print (st : PP) (s : String) (ind : Bool) : PP :=
  let o := st.outText (s ++ "\n") ind
  { st with stream := st.stream ++ o, charcount := st.charcount + o.length,
            curpos := 0 }

/-- The pervasive pattern `if x is not None: self.write(...)` of the
visitors: write the carried text when present, else do nothing.
Callers pass the optional payload already interpolated into its
surrounding f-string text. -/
def writeOptText (st : PP) (o : Option String) : PP :=
  match o with
  | Option.some s => st.write s false
  | Option.none => st

/-- The `if b: self.write(s)` pattern. -/
def writeIf (st : PP) (b : Bool) (s : String) : PP :=
  if b then st.write s false else st

/-- The flag prefix written by `write_key_value`'s `Assign` branch when
`value.flags is not None`: the present flags in the fixed order
redeclare, each, final, replaceable, space-joined, plus a trailing
space. -/
def assignFlagText (f : AssignFlags) : String :=
  String.intercalate " "
    ((if f.isRedeclare then ["redeclare"] else []) ++
     (if f.isEach then ["each"] else []) ++
     (if f.isFinal then ["final"] else []) ++
     (if f.isReplaceable then ["replaceable"] else [])) ++ " "

/-!
The recursive emitters of `output.py`.  `write_key_value` is split into
`writeKeyValue` (dispatch on the value) and `writeKVDict` (its dict
branch, which writes the key and then the arity-dependent parenthesized
layout); `write_annotation` likewise into `writeAnnot` / `writeAnnotDict`.
This split is purely structural: the Python `value.init` / `value.anno`
recursions always enter through the dict branch.  The per-entry loops of
the multi-line layouts (`first, *rest, last = lst` followed by a loop over
`rest` and a separate `last` step) are expressed as one recursion whose
singleton case is the comma-less `last` step.
-/

mutual

/-- The `PrettyPrinter.write_key_value(key, value)` of `output.py`. -/
def writeKeyValue (st : PP) (key : String) (v : Value) : Option PP :=
  match v with
  | .none => some (st.write key false)
  | .dict entries => writeKVDict st key entries
  | .assign value init fmt flags descr anno type =>
    -- flags prefix, then the literal type name when truthy (`if value.type:`)
    let st := writeOptText st (flags.map assignFlagText)
    let st := writeOptText st ((type.filter (fun t => t != "")).map (fun t => t ++ " "))
    -- `if value.init:` nonempty dict renders `key(...)`, else the bare key
    (if init.isEmpty then some (st.write key false)
     else writeKVDict st key init).bind (fun st =>
    -- `= value` (spaced when a modification list precedes), description,
    -- and the trailing annotation
    let st := writeOptText st (value.map (fun v' =>
      (if init.isEmpty then "=" else " = ") ++ pyFormat (some v') fmt))
    let st := writeOptText st (descr.map (fun d => " \"" ++ d ++ "\""))
    if anno.isEmpty then some st
    else writeAnnotDict (st.write " annotation" false) anno)
  | .boolean b =>
    some (if b then st.write (key ++ "=true") false else st.write (key ++ "=false") false)
  | .integer n => some (st.write (key ++ "=" ++ toString n) false)
  | .arr es =>
    some (st.write (key ++ "=\x7b" ++ pyStrJoin ", " es ++ "\x7d") false)
  | .string s => some (st.write (key ++ "=" ++ s) false)

/-- The dict branch of `write_key_value`: write the key, then the
0 / 1 / 2 / more-than-2 entry layout. -/
def writeKVDict (st : PP) (key : String) (entries : List (String × Value)) : Option PP :=
  let st := st.write key false
  match entries with
  | [] => some st
  | [(k1, v1)] =>
    (writeKeyValue (st.write "(" false) k1 v1).map (fun st => st.write ")" false)
  | [(k1, v1), (k2, v2)] =>
    (writeKeyValue (st.write "(" false) k1 v1).bind (fun st =>
    (writeKeyValue (st.write ", " false) k2 v2).map (fun st => st.write ")" false))
  | (k1, v1) :: rest =>
    let st := { st with indent := st.indent + 1 }
    let st := st.write "(\n" false
    let st := st.write "" true
    (writeKeyValue st k1 v1).bind (fun st =>
    (wkvEntries (st.print "," false) rest).map (fun st =>
      ({ st with indent := st.indent - 1 }).write ")" false))

/-- The remaining entries of the multi-line `write_key_value` layout:
every entry on its own indented line, a `,` plus line break after each
but the last. -/
def wkvEntries (st : PP) : List (String × Value) → Option PP
  | [] => some st
  | [(k, v)] => writeKeyValue (st.write "" true) k v
  | (k, v) :: rest =>
    (writeKeyValue (st.write "" true) k v).bind (fun st =>
      wkvEntries (st.print "," false) rest)

/-- The `PrettyPrinter.write_annotation(anno)` of `output.py`. -/
def writeAnnot (st : PP) (anno : Value) : Option PP :=
  match anno with
  | .dict entries => writeAnnotDict st entries
  | .arr elems =>
    match elems with
    | [] => some (st.write "=\x7b\x7d" false)
    | (.dict _) :: _ =>
      let st := st.print "=\x7b" true
      let st := { st with indent := st.indent + 1 }
      (waMapElems st elems).map (fun st =>
        let st := { st with indent := st.indent - 1 }
        let st := st.print "" false
        st.write "\x7d" true)
    | (.arr _) :: _ =>
      (waArrElems (st.write "=\x7b" false) elems).map (fun st => st.write "\x7d" false)
    | _ =>
      some (st.write ("=\x7b" ++ pyStrJoin "," elems ++ "\x7d") false)
  | .boolean b =>
    some (if b then st.write "=true" false else st.write "=false" false)
  | v => some (st.write ("=" ++ pyStr v) false)

/-- The dict case of `write_annotation`: 0 entries emit nothing, 1 entry
emits `(name` value `)` on one line, 2 or more entries emit the
multi-line layout (first entry directly after `(`, subsequent entries
indented one level deeper, `,` plus line break between entries, `)`
directly after the last value). -/
def writeAnnotDict (st : PP) (entries : List (String × Value)) : Option PP :=
  match entries with
  | [] => some st
  | [(k, v)] =>
    (writeAnnot ((st.write "(" false).write k false) v).map (fun st => st.write ")" false)
  | (k1, v1) :: rest =>
    let st := st.write "(" false
    let st := { st with indent := st.indent + 1 }
    let st := st.write k1 false
    (writeAnnot st v1).bind (fun st =>
    (waEntries (st.print "," false) rest).map (fun st =>
      ({ st with indent := st.indent - 1 }).write ")" false))

/-- The remaining entries of the multi-line `write_annotation` dict
layout. -/
def waEntries (st : PP) : List (String × Value) → Option PP
  | [] => some st
  | [(k, v)] => writeAnnot (st.write k true) v
  | (k, v) :: rest =>
    (writeAnnot (st.write k true) v).bind (fun st =>
      waEntries (st.print "," false) rest)

/-- The list-of-dicts branch of `write_annotation`: every element must be
a dict; non-last elements are asserted to have exactly one entry, the
last element's first entry is taken (`list(last.items())[0]`, an
`IndexError` on an empty dict). -/
def waMapElems (st : PP) : List Value → Option PP
  | [] => some st
  | [e] =>
    match e with
    | .dict ((name, value) :: _) => writeAnnot (st.write name true) value
    | _ => Option.none
  | e :: rest =>
    match e with
    | .dict [(name, value)] =>
      (writeAnnot (st.write name true) value).bind (fun st =>
        waMapElems (st.print "," true) rest)
    | _ => Option.none

/-- The list-of-lists branch of `write_annotation`: each element rendered
as a brace-wrapped comma join of its `str`-ed items, elements separated
by `,`. -/
def waArrElems (st : PP) : List Value → Option PP
  | [] => some st
  | [e] =>
    (pyIterStrs e).map (fun strs =>
      st.write ("\x7b" ++ String.intercalate "," strs ++ "\x7d") false)
  | e :: rest =>
    (pyIterStrs e).bind (fun strs =>
      let st := st.write ("\x7b" ++ String.intercalate "," strs ++ "\x7d") false
      waArrElems (st.write "," false) rest)

end

/-!
The node kinds of the document model (`misc.py`, `component.py`,
`model.py`) and the `visit_*` dispatch of `PrettyPrinter`.  The `Node`
type is the closed set of section-level node kinds the claims range
over; the conditional/loop constructs of `condition.py` and nested
`Model` nodes inside sections are outside that set (no claim mentions
them).
-/

/-- The `Component` of `component.py` (fields as set by `__init__`). -/
structure ComponentData where
  type : String
  ident : String
  value : Option Value := Option.none
  init : List (String × Value) := []
  flags : Option ComponentFlags := Option.none
  variability : Option Variability := Option.none
  causality : Option Causality := Option.none
  flux : Option Flux := Option.none
  subscripts : List Value := []
  condition : Option Value := Option.none
  constraint : Option Unit := Option.none
  descr : Option String := Option.none
  anno : List (String × Value) := []

/-- A reference argument of `add_connect`: a plain string or a
`Component`. -/
inductive ConnRef where
  | str (s : String)
  | comp (c : ComponentData)

/-- Python `str` of a `ConnRef`, as interpolated by f-strings.  A
`Component` is a `@dataclass` with no annotated class fields, so its
generated repr is the constant `"Component()"`. -/
def ConnRef.text : ConnRef → String
  | .str s => s
  | .comp _ => "Component()"

/-- The owner name taken from a reference by `add_connect`'s 4-argument
form: a `Component`'s `ident`, otherwise the value itself. -/
def ConnRef.ownerName : ConnRef → String
  | .str s => s
  | .comp c => c.ident

/-- The `Connect` of `misc.py`.  The dataclass declares `ref1, ref2 : str`,
but `add_connect` stores whatever it was given, so the refs keep the
`ConnRef` type here. -/
structure ConnectData where
  ref1 : ConnRef
  ref2 : ConnRef
  descr : Option String := Option.none
  anno : List (String × Value) := []

/-- The `Equation` of `misc.py`. -/
structure EquationData where
  left : String
  right : String
  descr : Option String := Option.none
  anno : List (String × Value) := []

/-- The `Algorithm` of `misc.py` (its annotation is `Optional[dict]`, unlike
`Equation`'s). -/
structure AlgorithmData where
  left : String
  right : String
  descr : Option String := Option.none
  anno : Option (List (String × Value)) := Option.none

/-- The `Text` of `misc.py`: raw lines plus the indent flag. -/
structure TextData where
  lines : List String
  indentFlag : Bool

/-- The `Within` of `misc.py`. -/
structure WithinData where
  name : Option String
  deriving DecidableEq, Repr

/-- The `Within.from_str`. -/
def WithinData.fromStr (s : String) : WithinData :=
  if s = "" then ⟨Option.none⟩ else ⟨some s⟩

/-- The closed set of section-level nodes the renderer dispatches on. -/
inductive Node where
  | component (c : ComponentData)
  | equation (e : EquationData)
  | algorithm (a : AlgorithmData)
  | connect (c : ConnectData)
  | extends_ (name : String)
  | text (t : TextData)
  | qualifiedImport (name : String)
  | multiImport (path : String) (names : List String)
  | namedImport (short long : String)
  | within (w : WithinData)
  | str (s : String)

/-- The `Model` of `model.py`: identifier, description, within, flags,
annotation, the component registry (an insertion-ordered dict), and the
six ordered sections. -/
structure ModelData where
  ident : String
  descr : Option String := Option.none
  within : Option WithinData := Option.none
  flags : Option ModelFlags := Option.none
  anno : List (String × Value) := []
  components : List (String × ComponentData) := []
  publicSection : List Node := []
  protectedSection : List Node := []
  initialEquations : List Node := []
  initialAlgorithms : List Node := []
  equations : List Node := []
  algorithms : List Node := []

/-- The `Model.__init__(ident, description, within, flags, annotation)`. -/
def mkModel (ident : String := "Unnamed") (descr : Option String := Option.none)
    (within : Option String := Option.none) (flags : Option ModelFlags := Option.none)
    (anno : Option (List (String × Value)) := Option.none) : ModelData :=
  { ident := ident, descr := descr, within := within.map WithinData.fromStr,
    flags := flags, anno := anno.getD [] }

/-- The `visit_Annotation`: the word `annotation`, a space, then the
annotation tree via `write_annotation`. -/
def visitAnnot (st : PP) (a : List (String × Value)) : Option PP :=
  writeAnnotDict (st.write "annotation " false) a

/-- The `if node.annotation: self.write(" "); self.visit_Annotation(...)`
tail shared by `visit_Component` / `visit_Equation` / `visit_Connect`. -/
def optAnnoPart (st : PP) (a : List (String × Value)) : Option PP :=
  if a.isEmpty then some st else visitAnnot (st.write " " false) a

/-- The flag segment of `visit_Component`: `final`, `inner`, `outer` in
that fixed order; the `Replaceable` member of `ComponentFlags` is never
emitted here. -/
def componentFlagsPart (st : PP) (flags : Option ComponentFlags) : PP :=
  match flags with
  | Option.none => st
  | Option.some f =>
    writeIf (writeIf (writeIf st f.isFinal "final ") f.isInner "inner ") f.isOuter "outer "

/-- The `node.value` segment of `visit_Component`: `=value`, with spaces
around the `=` when a modification list precedes (two separate `write`
calls in the source). -/
def compValuePart (st : PP) (value : Option Value) (initEmpty : Bool) : PP :=
  match value with
  | Option.some v =>
    let spacing := if initEmpty then "" else " "
    (st.write (spacing ++ "=" ++ spacing) false).write (pyStr v) false
  | Option.none => st

/-- The `visit_Component` of `output.py`. -/
def visitComponent (st : PP) (c : ComponentData) : Option PP :=
  let st := st.write "" true
  let st := componentFlagsPart st c.flags
  let st := writeOptText st (c.flux.map (fun fl => fl.value ++ " "))
  let st := writeOptText st (c.variability.map (fun vb => vb.value ++ " "))
  let st := writeOptText st (c.causality.map (fun ca => ca.value ++ " "))
  let st := st.write c.type false
  let st := writeIf st (!c.subscripts.isEmpty)
    ("[" ++ pyStrJoin "," c.subscripts ++ "]")
  let st := st.write (" " ++ c.ident) false
  (if c.init.isEmpty then some st else writeKVDict st "" c.init).bind (fun st =>
  let st := compValuePart st c.value c.init.isEmpty
  let st := writeOptText st (c.condition.map (fun e => " if " ++ pyStr e))
  -- `node.constraint is not None` raises NotImplementedError
  match c.constraint with
  | Option.some _ => Option.none
  | Option.none =>
  let st := writeOptText st (c.descr.map (fun d => " \"" ++ d ++ "\""))
  (optAnnoPart st c.anno).map (fun st => st.print ";" false))

/-- The `visit_Equation`. -/
def visitEquation (st : PP) (e : EquationData) : Option PP :=
  let st := st.write (e.left ++ " = " ++ e.right) true
  let st := writeOptText st (e.descr.map (fun d => " \"" ++ d ++ "\""))
  (optAnnoPart st e.anno).map (fun st => st.print ";" false)

/-- The annotation tail of `visit_Algorithm` (its check is
`is not None`, not truthiness, so an empty dict still emits the
`annotation` keyword). -/
def algAnnoPart (st : PP) (o : Option (List (String × Value))) : Option PP :=
  match o with
  | Option.some an => visitAnnot (st.write " " false) an
  | Option.none => some st

/-- The `visit_Algorithm`. -/
def visitAlgorithm (st : PP) (a : AlgorithmData) : Option PP :=
  let st := st.write (a.left ++ " := " ++ a.right) true
  let st := writeOptText st (a.descr.map (fun d => " \"" ++ d ++ "\""))
  (algAnnoPart st a.anno).map (fun st => st.print ";" false)

/-- The `visit_Connect` (its description goes through `visit_Description`,
the same ` "..."` shape). -/
def visitConnect (st : PP) (c : ConnectData) : Option PP :=
  let st := st.write ("connect(" ++ c.ref1.text ++ ", " ++ c.ref2.text ++ ")") true
  let st := writeOptText st (c.descr.map (fun d => " \"" ++ d ++ "\""))
  (optAnnoPart st c.anno).map (fun st => st.print ";" false)

/-- The `visit_Text`. -/
def visitText (st : PP) (t : TextData) : PP :=
  t.lines.foldl (fun st line => st.print line t.indentFlag) st

/-- The `visit_Within`. -/
def visitWithin (st : PP) (w : WithinData) : PP :=
  match w.name with
  | Option.none => st.print "within;" true
  | Option.some n => st.print ("within " ++ n ++ ";") true

/-- The flag segment of `visit_Model`: `final`, `encapsulated`,
`partial`, `replaceable` in that fixed order. -/
def modelFlagsPart (st : PP) (flags : Option ModelFlags) : PP :=
  match flags with
  | Option.none => st
  | Option.some f =>
    writeIf (writeIf (writeIf (writeIf st f.isFinal "final ")
      f.isEncapsulated "encapsulated ") f.isPartial "partial ")
      f.isReplaceable "replaceable "

mutual

/-- The `visit` dispatch of the `Visitor` base class, restricted to the
closed `Node` set (an object outside the dispatch table raises in
`visit_default`; every `Node` constructor has a `visit_` method). -/
def visitNode (st : PP) : Node → Option PP
  | .component c => visitComponent st c
  | .equation e => visitEquation st e
  | .algorithm a => visitAlgorithm st a
  | .connect c => visitConnect st c
  | .extends_ name => some (st.print ("extends " ++ name ++ ";") true)
  | .text t => some (visitText st t)
  | .qualifiedImport name => some (st.print ("import " ++ name ++ ";") true)
  | .multiImport path names =>
    some (st.print ("import " ++ path ++ ".\x7b" ++ String.intercalate ", " names ++ "\x7d;") true)
  | .namedImport short long =>
    some (st.print ("import " ++ short ++ " = " ++ long ++ ";") true)
  | .within w => some (visitWithin st w)
  | .str s => some (st.write s false)

/-- Visiting every element of a section in order. -/
def visitList (st : PP) : List Node → Option PP
  | [] => some st
  | n :: rest => (visitNode st n).bind (fun st => visitList st rest)

end

/-- One keyworded section of `visit_Model`: when non-empty, un-indent,
print the keyword line, re-indent, and visit the entries. -/
def visitSection (st : PP) (keyword : String) (entries : List Node) : Option PP :=
  if entries.isEmpty then some st
  else
    let st := { st with indent := st.indent - 1 }
    let st := st.print keyword true
    let st := { st with indent := st.indent + 1 }
    visitList st entries

/-- The `within` head of `visit_Model`. -/
def modelWithinPart (st : PP) (w : Option WithinData) : PP :=
  match w with
  | Option.some w => visitWithin st w
  | Option.none => st

/-- The `model NAME ["descr"]` header line of `visit_Model`. -/
def modelHeaderPart (st : PP) (ident : String) (descr : Option String) : PP :=
  match descr with
  | Option.some d => st.print ("model " ++ ident ++ " \"" ++ d ++ "\"") true
  | Option.none => st.print ("model " ++ ident) true

/-- The trailing model-level annotation of `visit_Model`: only emitted
when non-empty, terminated by `;`. -/
def modelAnnoPart (st : PP) (a : List (String × Value)) : Option PP :=
  if a.isEmpty then some st
  else (visitAnnot st a).map (fun st => st.print ";" false)

/-- The `visit_Model` of `output.py`. -/
def visitModel (st : PP) (m : ModelData) : Option PP :=
  let st := modelWithinPart st m.within
  let st := modelFlagsPart st m.flags
  let st := modelHeaderPart st m.ident m.descr
  let st := { st with indent := st.indent + 1 }
  (visitList st m.publicSection).bind (fun st =>
  (visitSection st "protected" m.protectedSection).bind (fun st =>
  (visitSection st "initial equation" m.initialEquations).bind (fun st =>
  (visitSection st "initial algorithm" m.initialAlgorithms).bind (fun st =>
  (visitSection st "equation" m.equations).bind (fun st =>
  (visitSection st "algorithm" m.algorithms).bind (fun st =>
  (modelAnnoPart st m.anno).map (fun st =>
  let st := { st with indent := st.indent - 1 }
  st.print ("end " ++ m.ident ++ ";") true)))))))

/-- A renderable object handed to `pprint`: a section-level node or a
whole model. -/
inductive Root where
  | node (n : Node)
  | model (m : ModelData)

/-- Dispatch of `Visitor.visit` over `Root`. -/
def visitRoot (st : PP) : Root → Option PP
  | .node n => visitNode st n
  | .model m => visitModel st m

/-- The result of a `pprint` call: the Python return value and, when a
stream was passed in, that stream's final contents. -/
structure PPrintResult where
  returned : Option String
  streamOut : Option String
  deriving DecidableEq, Repr

/-- The `pprint(o, stream, indentation=, width=, start_indent=)` of
`output.py`: with `stream=None` it renders into a fresh `StringIO` and
returns its contents; otherwise it renders onto the given stream and
returns `None`.  (The `draw_connections` flag only triggers a stdout
warning in `PrettyPrinter.__init__` and never affects rendering, so it
is not modelled.) -/
def pprint (o : Root) (stream : Option String) (indentation : String)
    (width : Int) (startIndent : Int) : Option PPrintResult :=
  match stream with
  | Option.none =>
    (visitRoot ⟨"", indentation, width, 0, 0, startIndent⟩ o).map
      (fun r => ⟨some r.stream, Option.none⟩)
  | Option.some s =>
    (visitRoot ⟨s, indentation, width, 0, 0, startIndent⟩ o).map
      (fun r => ⟨Option.none, some r.stream⟩)

/-- The text produced by a `pprint(o, stream=None, ...)` call. -/
def pprintString (o : Root) (indentation : String) (width : Int)
    (startIndent : Int) : Option String :=
  (visitRoot ⟨"", indentation, width, 0, 0, startIndent⟩ o).map (fun r => r.stream)

/-!
The builder operations of `model.py` and `misc.py`.  Python mutates the
`Model` object in place and raises on invalid input; here each builder
returns the model state as of the return or raise, paired with an
`Except` holding the returned node or the raised error.  Every error
branch below corresponds to a `raise`/failed `assert` that fires before
any mutation, so the error cases return the input model unchanged — that
correspondence is part of what the theorems check.
-/

/-- The `Model.add(some, where="public")`: append the node to the named
section, or raise `ValueError` for an unknown section name (before any
mutation). -/
def ModelData.add (m : ModelData) (x : Node) (where_ : String) :
    ModelData × Except String Node :=
  if where_ = "public" then
    ({ m with publicSection := m.publicSection ++ [x] }, .ok x)
  else if where_ = "protected" then
    ({ m with protectedSection := m.protectedSection ++ [x] }, .ok x)
  else if where_ = "initial equation" then
    ({ m with initialEquations := m.initialEquations ++ [x] }, .ok x)
  else if where_ = "initial algorithm" then
    ({ m with initialAlgorithms := m.initialAlgorithms ++ [x] }, .ok x)
  else if where_ = "equation" then
    ({ m with equations := m.equations ++ [x] }, .ok x)
  else if where_ = "algorithm" then
    ({ m with algorithms := m.algorithms ++ [x] }, .ok x)
  else
    (m, .error ("where=" ++ where_ ++ " unknown"))

/-- The `str2ComponentFlags` lookup table of `component.py` (a dict
lookup; a missing key is a `KeyError`). -/
def str2ComponentFlags (s : String) : Option ComponentFlags :=
  if s = "final" then some { isFinal := true }
  else if s = "inner" then some { isInner := true }
  else if s = "outer" then some { isOuter := true }
  else if s = "replaceable" then some { isReplaceable := true }
  else Option.none

/-- Python `str.split()` with no argument: split on runs of spaces,
discarding empty parts (only the space character is modelled). -/
def pySplit (s : String) : List String :=
  (s.splitOn " ").filter (fun p => p ≠ "")

/-- The `flags` argument accepted by `add_component`: `None`, a
space-separated string, or a `ComponentFlags` value. -/
inductive FlagsArg where
  | none
  | str (s : String)
  | flags (f : ComponentFlags)

/-- Folding `flgs |= str2ComponentFlags[part]` over the remaining parts
of a flags string (a `KeyError` on an unknown name). -/
def foldFlagParts (f : ComponentFlags) : List String → Except String ComponentFlags
  | [] => .ok f
  | part :: rest =>
    match str2ComponentFlags part with
    | Option.none => .error ("KeyError: " ++ part)
    | Option.some g => foldFlagParts (f.union g) rest

/-- The flags-parsing block of `add_component`: a string is split and
each part looked up in `str2ComponentFlags` (a `KeyError` on an unknown
name), the results are or-ed together; an empty split sets nothing. -/
def parseFlags : FlagsArg → Except String (Option ComponentFlags)
  | .none => .ok Option.none
  | .flags f => .ok (some f)
  | .str s =>
    match pySplit s with
    | [] => .ok Option.none
    | p :: rest =>
      match str2ComponentFlags p with
      | Option.none => .error ("KeyError: " ++ p)
      | Option.some f0 => (foldFlagParts f0 rest).map some

/-- Ordered-dict assignment `d[k] = v`: update in place when the key
exists, else append. -/
def assocSet (l : List (String × Value)) (k : String) (v : Value) :
    List (String × Value) :=
  if k ∈ l.map Prod.fst then
    l.map (fun e => if e.1 = k then (k, v) else e)
  else l ++ [(k, v)]

/-- Ordered-dict `d.setdefault(k, {})` followed by use of the result as
a dict: returns the entry list of the existing dict value (inserting an
empty one when absent), or fails when the existing value is not a dict
(the subsequent attribute/索ndex access would raise). -/
def setdefaultDict (l : List (String × Value)) (k : String) :
    Option (List (String × Value) × List (String × Value)) :=
  match l.find? (fun e => e.1 = k) with
  | Option.some (_, .dict d) => some (l, d)
  | Option.some _ => Option.none
  | Option.none => some (l ++ [(k, .dict [])], [])

/-- The `set_placement(component, pos, flip, rotation, size)` of
`component.py` (the `visible` parameter is not reachable through
`add_component` and stays `None`): store the extent/rotation/origin
transformation in the component's `Placement` annotation sub-tree. -/
def setPlacement (c : ComponentData) (pos : Int × Int) (flip : Option String)
    (rotation : Option Int) (size : Int) : Option ComponentData :=
  (setdefaultDict c.anno "Placement").bind (fun (anno, placement) =>
  (setdefaultDict placement "transformation").map (fun (placement, transf) =>
  let extent : Value :=
    if flip = some "horiz" then
      .arr [.arr [.integer size, .integer (-size)], .arr [.integer (-size), .integer size]]
    else if flip = some "vert" then
      .arr [.arr [.integer (-size), .integer size], .arr [.integer size, .integer (-size)]]
    else
      .arr [.arr [.integer (-size), .integer (-size)], .arr [.integer size, .integer size]]
  let transf := assocSet transf "extent" extent
  let transf := match rotation with
    | Option.some r => assocSet transf "rotation" (.integer r)
    | Option.none => transf
  let transf := assocSet transf "origin" (.arr [.integer pos.1, .integer pos.2])
  let placement := assocSet placement "transformation" (.dict transf)
  let anno := assocSet anno "Placement" (.dict placement)
  { c with anno := anno }))

/-- The placement-related keyword arguments of `add_component`
(`valid_pos_keys = \x7bpos, size, rotation, flip\x7d`) together with the
keyword arguments forwarded to `Component.__init__`. -/
structure AddCompKw where
  variability : Option Variability := Option.none
  causality : Option Causality := Option.none
  flux : Option Flux := Option.none
  subscripts : Option (List Value) := Option.none
  condition : Option Value := Option.none
  constraint : Option Unit := Option.none
  descr : Option String := Option.none
  anno : Option (List (String × Value)) := Option.none
  pos : Option (Int × Int) := Option.none
  size : Option Int := Option.none
  rotation : Option Int := Option.none
  flip : Option String := Option.none

/-- Whether any placement key was passed. -/
def AddCompKw.hasPosKey (kw : AddCompKw) : Bool :=
  kw.pos.isSome || kw.size.isSome || kw.rotation.isSome || kw.flip.isSome

/-- The `add_component(model, typ, ident, value, init=, protected=,
parameter=, flags=, **kwargs)` of `model.py`.  The duplicate-identifier
check fires first, before any other processing or mutation. -/
def addComponent (m : ModelData) (typ ident : String)
    (value : Option Value := Option.none)
    (init : Option (List (String × Value)) := Option.none)
    (protectedArg : Bool := false) (parameterArg : Bool := false)
    (flagsArg : FlagsArg := .none) (kw : AddCompKw := {}) :
    ModelData × Except String ComponentData :=
  if ident ∈ m.components.map Prod.fst then
    (m, .error ("component with ident " ++ ident ++ " already exists"))
  else
    -- `value` may carry the initialization dict
    let valueInit : Except String (Option Value × Option (List (String × Value))) :=
      match value with
      | Option.some (.dict d) =>
        if init.isSome then .error "cannot pass initialization twice"
        else .ok (Option.none, some d)
      | _ => .ok (value, init)
    match valueInit with
    | .error e => (m, .error e)
    | .ok (value, init) =>
      match parseFlags flagsArg with
      | .error e => (m, .error e)
      | .ok flags =>
        let variability := if parameterArg then some Variability.parameter
          else kw.variability
        let c : ComponentData :=
          { type := typ, ident := ident, value := value, init := init.getD [],
            flags := flags, variability := variability, causality := kw.causality,
            flux := kw.flux, subscripts := kw.subscripts.getD [],
            condition := kw.condition, constraint := kw.constraint,
            descr := kw.descr, anno := kw.anno.getD [] }
        let placed : Option ComponentData :=
          if kw.hasPosKey then
            match kw.pos with
            | Option.none => Option.none
            | Option.some p => setPlacement c p kw.flip kw.rotation (kw.size.getD 10)
          else some c
        match placed with
        | Option.none => (m, .error "set_placement failed")
        | Option.some c =>
          let m := if protectedArg then
              { m with protectedSection := m.protectedSection ++ [Node.component c] }
            else
              { m with publicSection := m.publicSection ++ [Node.component c] }
          ({ m with components := m.components ++ [(ident, c)] }, .ok c)

/-- The `add_connect(model, ref1, ref2, *args, description=)` of `model.py`:
with no extra args the two references are stored as given; with exactly
two extra args the dotted strings `owner1.port1` / `owner2.port2` are
composed (a `Component`'s owner name is its `ident`); any other extra
arg count raises `ValueError` before any mutation.  On success the
connect node is appended to the `equation` section via `Model.add`. -/
def addConnect (m : ModelData) (ref1 ref2 : ConnRef) (args : List ConnRef)
    (descr : Option String := Option.none) :
    ModelData × Except String ConnectData :=
  match args with
  | [] =>
    let c : ConnectData := { ref1 := ref1, ref2 := ref2, descr := descr }
    ((m.add (Node.connect c) "equation").1, .ok c)
  | [arg1, port2] =>
    let s1 := ref1.ownerName ++ "." ++ ref2.text
    let s2 := arg1.ownerName ++ "." ++ port2.text
    let c : ConnectData := { ref1 := .str s1, ref2 := .str s2, descr := descr }
    ((m.add (Node.connect c) "equation").1, .ok c)
  | _ => (m, .error "Too many or too few args.")

/-- The `Assign.__init__(value, init, fmt, flags, description, annotation,
type)` of `misc.py`: when an explicit literal `type` is supplied, the
flags must exist and contain `Redeclare` (two asserts, checked before
any field is set). -/
def mkAssign (value : Option Value := Option.none)
    (init : Option (List (String × Value)) := Option.none) (fmt : String := "")
    (flags : Option AssignFlags := Option.none)
    (descr : Option String := Option.none)
    (anno : Option (List (String × Value)) := Option.none)
    (type : Option String := Option.none) : Except String Value :=
  match type with
  | Option.some _ =>
    match flags with
    | Option.none => .error "assert flags is not None"
    | Option.some f =>
      if f.isRedeclare then
        .ok (.assign value (init.getD []) fmt flags descr (anno.getD []) type)
      else .error "component type must be known when redeclaring"
  | Option.none =>
    .ok (.assign value (init.getD []) fmt flags descr (anno.getD []) type)

/-!
Canonical emission.  By `OSeg`, what an emitter appends to the stream is
a function of the indentation unit and the indent depth alone, so it can
be read off a run from the canonical empty-stream state.
-/

/-- A printer state with an empty stream at the given indentation unit
and depth (the other fields are never read by any emitter). -/
def canonPP (ind : String) (i : Int) : PP :=
  ⟨"", ind, 80, 0, 0, i⟩

/-- The engine's own rendering of one modification entry `key=value` at
indent depth `i`: the text `write_key_value(key, value)` emits there. -/
def emitKV (ind : String) (i : Int) (key : String) (v : Value) : Option String :=
  (writeKeyValue (canonPP ind i) key v).map (fun r => r.stream)

/-- The engine's own rendering of one annotation value at depth `i`:
the text `write_annotation(v)` emits there. -/
def emitAnnot (ind : String) (i : Int) (v : Value) : Option String :=
  (writeAnnot (canonPP ind i) v).map (fun r => r.stream)

/-- Claim-side joining of entry texts for the multi-line modification
layout: every entry on its own line prefixed by `pad`, with a `,` plus
line break immediately after each entry except the last (no trailing
comma or newline after the final entry). -/
def joinLines (pad : String) : List String → String
  | [] => ""
  | [t] => pad ++ t
  | t :: rest => pad ++ t ++ ",\n" ++ joinLines pad rest

/-- The engine's renderings of every entry of a modification map at
depth `i` (fails when any entry rendering fails). -/
def emitAll (ind : String) (i : Int) : List (String × Value) → Option (List String)
  | [] => some []
  | (k, v) :: rest =>
    (emitKV ind i k v).bind (fun t => (emitAll ind i rest).map (fun ts => t :: ts))

/-- Claim C1's layout function, stated from the claim text: 0 entries →
no parentheses (just the key); 1 entry → single-line `key(k=v)`;
2 entries → single-line `key(k1=v1, k2=v2)` with `, ` between them;
3 or more entries → `key(` then a line break, each entry rendered at
depth `i+1` on its own line prefixed by the `(i+1)`-fold indentation
unit, a `,` immediately after every entry's value except the last, and
`)` immediately after the last value with no trailing newline.  Entry
texts are the engine's own renderings `emitKV`. -/
def modMapLayout (ind : String) (i : Int) (key : String)
    (entries : List (String × Value)) : Option String :=
  match entries with
  | [] => some key
  | [(k, v)] => (emitKV ind i k v).map (fun t => key ++ "(" ++ t ++ ")")
  | [(k1, v1), (k2, v2)] =>
    (emitKV ind i k1 v1).bind (fun t1 =>
      (emitKV ind i k2 v2).map (fun t2 =>
        key ++ "(" ++ t1 ++ ", " ++ t2 ++ ")"))
  | _ =>
    (emitAll ind (i + 1) entries).map (fun ts =>
      key ++ "(\n" ++ joinLines (pyStrMul (i + 1) ind) ts ++ ")")

/-- The canonical model flag order of the output contract: `final`,
`encapsulated`, `partial`, `replaceable`, only those present. -/
def modelFlagText (f : ModelFlags) : String :=
  (if f.isFinal then "final " else "") ++
  (if f.isEncapsulated then "encapsulated " else "") ++
  (if f.isPartial then "partial " else "") ++
  (if f.isReplaceable then "replaceable " else "")

/-- The canonical declaration flag order of the output contract:
`final`, `inner`, `outer` — `replaceable` is never part of it. -/
def componentFlagText (f : ComponentFlags) : String :=
  (if f.isFinal then "final " else "") ++
  (if f.isInner then "inner " else "") ++
  (if f.isOuter then "outer " else "")

/-!
Emission algebra.  Every emitter writes through `PP.write` / `PP.print`,
which only read the `indentation` unit and the `indent` depth; nothing
ever reads the accumulated `stream`, the `charcount`, the `curpos`
column, or the advisory `width`.  `Seg f δ` (total steps) and `OSeg f δ`
(fallible steps) capture this: run on any two states that agree on
indentation unit and depth, a step appends the same text to both
streams, preserves the indentation unit, and shifts the depth by `δ`.
This is the engine's purity/determinism backbone: the emitted text is a
function of the node and the (indentation, indent) pair alone.
-/

/-- A total printer step appending state-independent text and shifting
the indent depth by `δ`. -/
def Seg (f : PP → PP) (δ : Int) : Prop :=
  ∀ a b : PP, a.indentation = b.indentation → a.indent = b.indent →
    (f a).indentation = a.indentation ∧ (f b).indentation = b.indentation ∧
    (f a).indent = a.indent + δ ∧ (f b).indent = b.indent + δ ∧
    ∃ t, (f a).stream = a.stream ++ t ∧ (f b).stream = b.stream ++ t

/-- A fallible printer step: fails on both of two indent-agreeing states
or appends the same text to both. -/
def OSeg (f : PP → Option PP) (δ : Int) : Prop :=
  ∀ a b : PP, a.indentation = b.indentation → a.indent = b.indent →
    (f a = Option.none ∧ f b = Option.none) ∨
    (∃ ra rb t, f a = some ra ∧ f b = some rb ∧
      ra.indentation = a.indentation ∧ rb.indentation = b.indentation ∧
      ra.indent = a.indent + δ ∧ rb.indent = b.indent + δ ∧
      ra.stream = a.stream ++ t ∧ rb.stream = b.stream ++ t)

theorem seg_congr {f g : PP → PP} {δ : Int} (h : ∀ st, f st = g st)
    (hg : Seg g δ) : Seg f δ := by
  intro a b h1 h2
  rw [h a, h b]
  exact hg a b h1 h2

theorem oseg_congr {f g : PP → Option PP} {δ : Int} (h : ∀ st, f st = g st)
    (hg : OSeg g δ) : OSeg f δ := by
  intro a b h1 h2
  rw [h a, h b]
  exact hg a b h1 h2

theorem seg_cast {f : PP → PP} {δ δ' : Int} (h : δ = δ') (hf : Seg f δ) :
    Seg f δ' := h ▸ hf

theorem oseg_cast {f : PP → Option PP} {δ δ' : Int} (h : δ = δ') (hf : OSeg f δ) :
    OSeg f δ' := h ▸ hf

theorem seg_id : Seg (fun st => st) 0 := by
  intro a b _ _
  dsimp only
  exact ⟨rfl, rfl, by omega, by omega, "",
    (String.append_empty _).symm, (String.append_empty _).symm⟩

theorem seg_write (s : String) (ind : Bool) : Seg (fun st => st.write s ind) 0 := by
  intro a b h1 h2
  dsimp only
  have ho : b.outText s ind = a.outText s ind := by
    simp only [PP.outText, h1, h2]
  refine ⟨rfl, rfl, by simp [PP.write], by simp [PP.write],
    a.outText s ind, rfl, ?_⟩
  simp only [PP.write, ho]

theorem seg_print (s : String) (ind : Bool) : Seg (fun st => st.print s ind) 0 := by
  intro a b h1 h2
  dsimp only
  have ho : b.outText (s ++ "\n") ind = a.outText (s ++ "\n") ind := by
    simp only [PP.outText, h1, h2]
  refine ⟨rfl, rfl, by simp [PP.print], by simp [PP.print],
    a.outText (s ++ "\n") ind, rfl, ?_⟩
  simp only [PP.print, ho]

theorem seg_shiftUp : Seg (fun st => { st with indent := st.indent + 1 }) 1 := by
  intro a b _ _
  dsimp only
  exact ⟨rfl, rfl, rfl, rfl, "",
    (String.append_empty _).symm, (String.append_empty _).symm⟩

theorem seg_shiftDown : Seg (fun st => { st with indent := st.indent - 1 }) (-1) := by
  intro a b _ _
  dsimp only
  exact ⟨rfl, rfl, by omega, by omega, "",
    (String.append_empty _).symm, (String.append_empty _).symm⟩

theorem seg_comp {f g : PP → PP} {δ₁ δ₂ : Int} (hf : Seg f δ₁) (hg : Seg g δ₂) :
    Seg (fun st => g (f st)) (δ₁ + δ₂) := by
  intro a b h1 h2
  dsimp only
  obtain ⟨fa1, fb1, fa2, fb2, t1, ha1, hb1⟩ := hf a b h1 h2
  obtain ⟨ga1, gb1, ga2, gb2, t2, ha2, hb2⟩ :=
    hg (f a) (f b) (by rw [fa1, fb1, h1]) (by omega)
  refine ⟨ga1.trans fa1, gb1.trans fb1, by omega, by omega, t1 ++ t2, ?_, ?_⟩
  · rw [ha2, ha1, String.append_assoc]
  · rw [hb2, hb1, String.append_assoc]

theorem oseg_none (δ : Int) : OSeg (fun _ => Option.none) δ := by
  intro a b _ _
  exact Or.inl ⟨rfl, rfl⟩

theorem oseg_some {f : PP → PP} {δ : Int} (hf : Seg f δ) :
    OSeg (fun st => some (f st)) δ := by
  intro a b h1 h2
  dsimp only
  obtain ⟨fa1, fb1, fa2, fb2, t, ha, hb⟩ := hf a b h1 h2
  exact Or.inr ⟨f a, f b, t, rfl, rfl, fa1, fb1, fa2, fb2, ha, hb⟩

theorem oseg_pure : OSeg (fun st => some st) 0 := by
  intro a b _ _
  dsimp only
  exact Or.inr ⟨a, b, "", rfl, rfl, rfl, rfl, by omega, by omega,
    (String.append_empty _).symm, (String.append_empty _).symm⟩

theorem oseg_pre {g : PP → PP} {f : PP → Option PP} {δ₁ δ₂ : Int}
    (hg : Seg g δ₁) (hf : OSeg f δ₂) : OSeg (fun st => f (g st)) (δ₁ + δ₂) := by
  intro a b h1 h2
  dsimp only
  obtain ⟨ga1, gb1, ga2, gb2, t1, ha1, hb1⟩ := hg a b h1 h2
  rcases hf (g a) (g b) (by rw [ga1, gb1, h1]) (by omega) with
    ⟨hna, hnb⟩ | ⟨ra, rb, t2, hra, hrb, ia, ib, ja, jb, sa, sb⟩
  · exact Or.inl ⟨hna, hnb⟩
  · refine Or.inr ⟨ra, rb, t1 ++ t2, hra, hrb, ia.trans ga1, ib.trans gb1,
      by omega, by omega, ?_, ?_⟩
    · rw [sa, ha1, String.append_assoc]
    · rw [sb, hb1, String.append_assoc]

theorem oseg_map {f : PP → Option PP} {g : PP → PP} {δ₁ δ₂ : Int}
    (hf : OSeg f δ₁) (hg : Seg g δ₂) :
    OSeg (fun st => (f st).map g) (δ₁ + δ₂) := by
  intro a b h1 h2
  dsimp only
  rcases hf a b h1 h2 with
    ⟨hna, hnb⟩ | ⟨ra, rb, t1, hra, hrb, ia, ib, ja, jb, sa, sb⟩
  · exact Or.inl ⟨by simp [hna], by simp [hnb]⟩
  · obtain ⟨ga1, gb1, ga2, gb2, t2, ha2, hb2⟩ :=
      hg ra rb (by rw [ia, ib, h1]) (by omega)
    refine Or.inr ⟨g ra, g rb, t1 ++ t2, by simp [hra], by simp [hrb],
      ga1.trans ia, gb1.trans ib, by omega, by omega, ?_, ?_⟩
    · rw [ha2, sa, String.append_assoc]
    · rw [hb2, sb, String.append_assoc]

theorem oseg_bind {f g : PP → Option PP} {δ₁ δ₂ : Int}
    (hf : OSeg f δ₁) (hg : OSeg g δ₂) :
    OSeg (fun st => (f st).bind g) (δ₁ + δ₂) := by
  intro a b h1 h2
  dsimp only
  rcases hf a b h1 h2 with
    ⟨hna, hnb⟩ | ⟨ra, rb, t1, hra, hrb, ia, ib, ja, jb, sa, sb⟩
  · exact Or.inl ⟨by simp [hna], by simp [hnb]⟩
  · rcases hg ra rb (by rw [ia, ib, h1]) (by omega) with
      ⟨hna2, hnb2⟩ | ⟨qa, qb, t2, hqa, hqb, ia2, ib2, ja2, jb2, sa2, sb2⟩
    · exact Or.inl ⟨by simp [hra, hna2], by simp [hrb, hnb2]⟩
    · refine Or.inr ⟨qa, qb, t1 ++ t2, by simp [hra, hqa],
        by simp [hrb, hqb], ia2.trans ia, ib2.trans ib,
        by omega, by omega, ?_, ?_⟩
      · rw [sa2, sa, String.append_assoc]
      · rw [sb2, sb, String.append_assoc]

/-- The `seg_comp` specialized to two balanced steps. -/
theorem seg0_comp {f g : PP → PP} (hf : Seg f 0) (hg : Seg g 0) :
    Seg (fun st => g (f st)) 0 :=
  seg_cast (by norm_num) (seg_comp hf hg)

/-- The `oseg_pre` specialized to balanced steps. -/
theorem oseg0_pre {g : PP → PP} {f : PP → Option PP}
    (hg : Seg g 0) (hf : OSeg f 0) : OSeg (fun st => f (g st)) 0 :=
  oseg_cast (by norm_num) (oseg_pre hg hf)

/-- The `oseg_map` specialized to balanced steps. -/
theorem oseg0_map {f : PP → Option PP} {g : PP → PP}
    (hf : OSeg f 0) (hg : Seg g 0) : OSeg (fun st => (f st).map g) 0 :=
  oseg_cast (by norm_num) (oseg_map hf hg)

/-- The `oseg_bind` specialized to balanced steps. -/
theorem oseg0_bind {f g : PP → Option PP}
    (hf : OSeg f 0) (hg : OSeg g 0) : OSeg (fun st => (f st).bind g) 0 :=
  oseg_cast (by norm_num) (oseg_bind hf hg)

theorem seg_writeOptText (o : Option String) :
    Seg (fun st => writeOptText st o) 0 := by
  cases o with
  | none => exact seg_congr (fun st => rfl) seg_id
  | some s => exact seg_congr (fun st => rfl) (seg_write s false)

theorem seg_writeIf (b : Bool) (s : String) :
    Seg (fun st => writeIf st b s) 0 := by
  cases b with
  | false => exact seg_congr (fun st => rfl) seg_id
  | true => exact seg_congr (fun st => rfl) (seg_write s false)

/-- Master purity lemma for the recursive emitters, by induction on node
size: each of the eight mutually recursive emitters of `output.py` is a
balanced `OSeg` step — on any two printer states agreeing on the
indentation unit and depth it either fails on both or appends the same
text to both, restoring the indent depth. -/
theorem emittersOSeg : ∀ N : Nat,
    (∀ (v : Value) (key : String), sizeOf v ≤ N →
      OSeg (fun st => writeKeyValue st key v) 0) ∧
    (∀ (l : List (String × Value)) (key : String), sizeOf l ≤ N →
      OSeg (fun st => writeKVDict st key l) 0) ∧
    (∀ l : List (String × Value), sizeOf l ≤ N →
      OSeg (fun st => wkvEntries st l) 0) ∧
    (∀ v : Value, sizeOf v ≤ N → OSeg (fun st => writeAnnot st v) 0) ∧
    (∀ l : List (String × Value), sizeOf l ≤ N →
      OSeg (fun st => writeAnnotDict st l) 0) ∧
    (∀ l : List (String × Value), sizeOf l ≤ N →
      OSeg (fun st => waEntries st l) 0) ∧
    (∀ l : List Value, sizeOf l ≤ N → OSeg (fun st => waMapElems st l) 0) ∧
    (∀ l : List Value, sizeOf l ≤ N → OSeg (fun st => waArrElems st l) 0) := by
  intro N
  induction N with
  | zero =>
    refine ⟨?_, ?_, ?_, ?_, ?_, ?_, ?_, ?_⟩
    · intro v key h; exact absurd h (by cases v <;> simp_arith)
    · intro l key h; exact absurd h (by cases l <;> simp_arith)
    · intro l h; exact absurd h (by cases l <;> simp_arith)
    · intro v h; exact absurd h (by cases v <;> simp_arith)
    · intro l h; exact absurd h (by cases l <;> simp_arith)
    · intro l h; exact absurd h (by cases l <;> simp_arith)
    · intro l h; exact absurd h (by cases l <;> simp_arith)
    · intro l h; exact absurd h (by cases l <;> simp_arith)
  | succ N ih =>
    obtain ⟨ihKV, ihKVD, ihWE, ihWA, ihWAD, ihWAE, ihWM, ihWR⟩ := ih
    refine ⟨?_, ?_, ?_, ?_, ?_, ?_, ?_, ?_⟩
    -- writeKeyValue
    · intro v key h
      cases v with
      | none => exact oseg_congr (fun st => rfl) (oseg_some (seg_write key false))
      | boolean b =>
        cases b with
        | true =>
          exact oseg_congr (fun st => rfl) (oseg_some (seg_write (key ++ "=true") false))
        | false =>
          exact oseg_congr (fun st => rfl) (oseg_some (seg_write (key ++ "=false") false))
      | integer n => exact oseg_congr (fun st => rfl) (oseg_some (seg_write _ false))
      | string s => exact oseg_congr (fun st => rfl) (oseg_some (seg_write _ false))
      | arr es => exact oseg_congr (fun st => rfl) (oseg_some (seg_write _ false))
      | dict entries =>
        have hsz : sizeOf entries ≤ N := by simp at h; omega
        exact oseg_congr (fun st => rfl) (ihKVD entries key hsz)
      | assign value init fmt flags descr anno type =>
        have hszI : sizeOf init ≤ N := by simp at h; omega
        have hszA : sizeOf anno ≤ N := by simp at h; omega
        have hInit : OSeg (fun st => if init.isEmpty then some (st.write key false)
            else writeKVDict st key init) 0 := by
          by_cases hI : init.isEmpty
          · exact oseg_congr (fun st => by rw [if_pos hI]) (oseg_some (seg_write key false))
          · exact oseg_congr (fun st => by rw [if_neg hI]) (ihKVD init key hszI)
        have hTail : OSeg (fun st => if anno.isEmpty then some st
            else writeAnnotDict (st.write " annotation" false) anno) 0 := by
          by_cases hA : anno.isEmpty
          · exact oseg_congr (fun st => by rw [if_pos hA]) oseg_pure
          · exact oseg_congr (fun st => by rw [if_neg hA])
              (oseg0_pre (seg_write " annotation" false) (ihWAD anno hszA))
        exact oseg_congr (fun st => rfl)
          (oseg0_pre (seg0_comp (seg_writeOptText _) (seg_writeOptText _))
            (oseg0_bind hInit
              (oseg0_pre (seg0_comp (seg_writeOptText _) (seg_writeOptText _)) hTail)))
    -- writeKVDict
    · intro l key h
      rcases l with _ | ⟨⟨k1, v1⟩, _ | ⟨⟨k2, v2⟩, _ | ⟨⟨k3, v3⟩, rest⟩⟩⟩
      · exact oseg_congr (fun st => rfl) (oseg_some (seg_write key false))
      · have hv1 : sizeOf v1 ≤ N := by simp at h; omega
        exact oseg_congr (fun st => rfl)
          (oseg0_pre (seg0_comp (seg_write key false) (seg_write "(" false))
            (oseg0_map (ihKV v1 k1 hv1) (seg_write ")" false)))
      · have hv1 : sizeOf v1 ≤ N := by simp at h; omega
        have hv2 : sizeOf v2 ≤ N := by simp at h; omega
        exact oseg_congr (fun st => rfl)
          (oseg0_pre (seg0_comp (seg_write key false) (seg_write "(" false))
            (oseg0_bind (ihKV v1 k1 hv1)
              (oseg0_pre (seg_write ", " false)
                (oseg0_map (ihKV v2 k2 hv2) (seg_write ")" false)))))
      · have hv1 : sizeOf v1 ≤ N := by simp at h; omega
        have hrest : sizeOf ((k2, v2) :: (k3, v3) :: rest) ≤ N := by simp at h ⊢; omega
        refine oseg_congr (fun st => rfl) (oseg_cast ?_
          (oseg_pre (seg_write key false)
            (oseg_pre (seg_comp (seg_comp seg_shiftUp (seg_write "(\n" false))
                (seg_write "" true))
              (oseg_bind (ihKV v1 k1 hv1)
                (oseg_pre (seg_print "," false)
                  (oseg_map (ihWE ((k2, v2) :: (k3, v3) :: rest) hrest)
                    (seg_comp seg_shiftDown (seg_write ")" false))))))))
        norm_num
    -- wkvEntries
    · intro l h
      rcases l with _ | ⟨⟨k1, v1⟩, _ | ⟨⟨k2, v2⟩, rest⟩⟩
      · exact oseg_congr (fun st => rfl) oseg_pure
      · have hv1 : sizeOf v1 ≤ N := by simp at h; omega
        exact oseg_congr (fun st => rfl)
          (oseg0_pre (seg_write "" true) (ihKV v1 k1 hv1))
      · have hv1 : sizeOf v1 ≤ N := by simp at h; omega
        have hrest : sizeOf ((k2, v2) :: rest) ≤ N := by simp at h ⊢; omega
        exact oseg_congr (fun st => rfl)
          (oseg0_pre (seg_write "" true)
            (oseg0_bind (ihKV v1 k1 hv1)
              (oseg0_pre (seg_print "," false) (ihWE ((k2, v2) :: rest) hrest))))
    -- writeAnnot
    · intro v h
      cases v with
      | none => exact oseg_congr (fun st => rfl) (oseg_some (seg_write _ false))
      | boolean b =>
        cases b with
        | true => exact oseg_congr (fun st => rfl) (oseg_some (seg_write "=true" false))
        | false => exact oseg_congr (fun st => rfl) (oseg_some (seg_write "=false" false))
      | integer n => exact oseg_congr (fun st => rfl) (oseg_some (seg_write _ false))
      | string s => exact oseg_congr (fun st => rfl) (oseg_some (seg_write _ false))
      | assign value init fmt flags descr anno type =>
        exact oseg_congr (fun st => rfl) (oseg_some (seg_write _ false))
      | dict entries =>
        have hsz : sizeOf entries ≤ N := by simp at h; omega
        exact oseg_congr (fun st => rfl) (ihWAD entries hsz)
      | arr elems =>
        have hsz : sizeOf elems ≤ N := by simp at h; omega
        rcases elems with _ | ⟨e1, tl⟩
        · exact oseg_congr (fun st => rfl) (oseg_some (seg_write _ false))
        · cases e1 with
          | dict d =>
            refine oseg_congr (fun st => rfl) (oseg_cast ?_
              (oseg_pre (seg_comp (seg_print "=\x7b" true) seg_shiftUp)
                (oseg_map (ihWM (Value.dict d :: tl) hsz)
                  (seg_comp (seg_comp seg_shiftDown (seg_print "" false))
                    (seg_write "\x7d" true)))))
            norm_num
          | arr a =>
            exact oseg_congr (fun st => rfl)
              (oseg0_pre (seg_write "=\x7b" false)
                (oseg0_map (ihWR (Value.arr a :: tl) hsz) (seg_write "\x7d" false)))
          | none => exact oseg_congr (fun st => rfl) (oseg_some (seg_write _ false))
          | boolean b => exact oseg_congr (fun st => rfl) (oseg_some (seg_write _ false))
          | integer n => exact oseg_congr (fun st => rfl) (oseg_some (seg_write _ false))
          | string s => exact oseg_congr (fun st => rfl) (oseg_some (seg_write _ false))
          | assign value init fmt flags descr anno type =>
            exact oseg_congr (fun st => rfl) (oseg_some (seg_write _ false))
    -- writeAnnotDict
    · intro l h
      rcases l with _ | ⟨⟨k1, v1⟩, _ | ⟨⟨k2, v2⟩, rest⟩⟩
      · exact oseg_congr (fun st => rfl) oseg_pure
      · have hv1 : sizeOf v1 ≤ N := by simp at h; omega
        exact oseg_congr (fun st => rfl)
          (oseg0_pre (seg0_comp (seg_write "(" false) (seg_write k1 false))
            (oseg0_map (ihWA v1 hv1) (seg_write ")" false)))
      · have hv1 : sizeOf v1 ≤ N := by simp at h; omega
        have hrest : sizeOf ((k2, v2) :: rest) ≤ N := by simp at h ⊢; omega
        refine oseg_congr (fun st => rfl) (oseg_cast ?_
          (oseg_pre (seg_comp (seg_comp (seg_write "(" false) seg_shiftUp)
              (seg_write k1 false))
            (oseg_bind (ihWA v1 hv1)
              (oseg_pre (seg_print "," false)
                (oseg_map (ihWAE ((k2, v2) :: rest) hrest)
                  (seg_comp seg_shiftDown (seg_write ")" false)))))))
        norm_num
    -- waEntries
    · intro l h
      rcases l with _ | ⟨⟨k1, v1⟩, _ | ⟨⟨k2, v2⟩, rest⟩⟩
      · exact oseg_congr (fun st => rfl) oseg_pure
      · have hv1 : sizeOf v1 ≤ N := by simp at h; omega
        exact oseg_congr (fun st => rfl)
          (oseg0_pre (seg_write k1 true) (ihWA v1 hv1))
      · have hv1 : sizeOf v1 ≤ N := by simp at h; omega
        have hrest : sizeOf ((k2, v2) :: rest) ≤ N := by simp at h ⊢; omega
        exact oseg_congr (fun st => rfl)
          (oseg0_pre (seg_write k1 true)
            (oseg0_bind (ihWA v1 hv1)
              (oseg0_pre (seg_print "," false) (ihWAE ((k2, v2) :: rest) hrest))))
    -- waMapElems
    · intro l h
      rcases l with _ | ⟨e1, _ | ⟨e2, rest⟩⟩
      · exact oseg_congr (fun st => rfl) oseg_pure
      · cases e1 with
        | dict d =>
          rcases d with _ | ⟨⟨name, value⟩, dtl⟩
          · exact oseg_congr (fun st => rfl) (oseg_none 0)
          · have hval : sizeOf value ≤ N := by simp at h; omega
            exact oseg_congr (fun st => rfl)
              (oseg0_pre (seg_write name true) (ihWA value hval))
        | none => exact oseg_congr (fun st => rfl) (oseg_none 0)
        | boolean b => exact oseg_congr (fun st => rfl) (oseg_none 0)
        | integer n => exact oseg_congr (fun st => rfl) (oseg_none 0)
        | string s => exact oseg_congr (fun st => rfl) (oseg_none 0)
        | arr a => exact oseg_congr (fun st => rfl) (oseg_none 0)
        | assign value init fmt flags descr anno type =>
          exact oseg_congr (fun st => rfl) (oseg_none 0)
      · cases e1 with
        | dict d =>
          rcases d with _ | ⟨⟨name, value⟩, _ | ⟨d2, dtl⟩⟩
          · exact oseg_congr (fun st => rfl) (oseg_none 0)
          · have hval : sizeOf value ≤ N := by simp at h; omega
            have hrest : sizeOf (e2 :: rest) ≤ N := by simp at h ⊢; omega
            exact oseg_congr (fun st => rfl)
              (oseg0_pre (seg_write name true)
                (oseg0_bind (ihWA value hval)
                  (oseg0_pre (seg_print "," true) (ihWM (e2 :: rest) hrest))))
          · exact oseg_congr (fun st => rfl) (oseg_none 0)
        | none => exact oseg_congr (fun st => rfl) (oseg_none 0)
        | boolean b => exact oseg_congr (fun st => rfl) (oseg_none 0)
        | integer n => exact oseg_congr (fun st => rfl) (oseg_none 0)
        | string s => exact oseg_congr (fun st => rfl) (oseg_none 0)
        | arr a => exact oseg_congr (fun st => rfl) (oseg_none 0)
        | assign value init fmt flags descr anno type =>
          exact oseg_congr (fun st => rfl) (oseg_none 0)
    -- waArrElems
    · intro l h
      rcases l with _ | ⟨e1, _ | ⟨e2, rest⟩⟩
      · exact oseg_congr (fun st => rfl) oseg_pure
      · cases hE : pyIterStrs e1 with
        | none =>
          refine oseg_congr (fun st => ?_) (oseg_none 0)
          show (pyIterStrs e1).map _ = Option.none
          rw [hE]; rfl
        | some strs =>
          refine oseg_congr (fun st => ?_) (oseg_some (seg_write
            ("\x7b" ++ String.intercalate "," strs ++ "\x7d") false))
          show (pyIterStrs e1).map _ = _
          rw [hE]; rfl
      · have hrest : sizeOf (e2 :: rest) ≤ N := by simp at h ⊢; omega
        cases hE : pyIterStrs e1 with
        | none =>
          refine oseg_congr (fun st => ?_) (oseg_none 0)
          show (pyIterStrs e1).bind _ = Option.none
          rw [hE]; rfl
        | some strs =>
          refine oseg_congr (fun st => ?_)
            (oseg0_pre (seg0_comp (seg_write
                ("\x7b" ++ String.intercalate "," strs ++ "\x7d") false)
              (seg_write "," false)) (ihWR (e2 :: rest) hrest))
          show (pyIterStrs e1).bind _ = _
          rw [hE]; rfl

theorem oseg_writeKeyValue (key : String) (v : Value) :
    OSeg (fun st => writeKeyValue st key v) 0 :=
  (emittersOSeg (sizeOf v)).1 v key le_rfl

theorem oseg_writeKVDict (key : String) (l : List (String × Value)) :
    OSeg (fun st => writeKVDict st key l) 0 :=
  (emittersOSeg (sizeOf l)).2.1 l key le_rfl

theorem oseg_wkvEntries (l : List (String × Value)) :
    OSeg (fun st => wkvEntries st l) 0 :=
  (emittersOSeg (sizeOf l)).2.2.1 l le_rfl

theorem oseg_writeAnnot (v : Value) : OSeg (fun st => writeAnnot st v) 0 :=
  (emittersOSeg (sizeOf v)).2.2.2.1 v le_rfl

theorem oseg_writeAnnotDict (l : List (String × Value)) :
    OSeg (fun st => writeAnnotDict st l) 0 :=
  (emittersOSeg (sizeOf l)).2.2.2.2.1 l le_rfl

theorem oseg_waEntries (l : List (String × Value)) :
    OSeg (fun st => waEntries st l) 0 :=
  (emittersOSeg (sizeOf l)).2.2.2.2.2.1 l le_rfl

theorem oseg_visitAnnot (a : List (String × Value)) :
    OSeg (fun st => visitAnnot st a) 0 :=
  oseg_congr (fun _ => rfl)
    (oseg0_pre (seg_write "annotation " false) (oseg_writeAnnotDict a))

theorem oseg_optAnnoPart (a : List (String × Value)) :
    OSeg (fun st => optAnnoPart st a) 0 := by
  by_cases h : a.isEmpty
  · exact oseg_congr (fun st => by rw [optAnnoPart, if_pos h]) oseg_pure
  · exact oseg_congr (fun st => by rw [optAnnoPart, if_neg h])
      (oseg0_pre (seg_write " " false) (oseg_visitAnnot a))

theorem oseg_algAnnoPart (o : Option (List (String × Value))) :
    OSeg (fun st => algAnnoPart st o) 0 := by
  cases o with
  | none => exact oseg_congr (fun st => rfl) oseg_pure
  | some an =>
    exact oseg_congr (fun st => rfl)
      (oseg0_pre (seg_write " " false) (oseg_visitAnnot an))

theorem seg_componentFlagsPart (flags : Option ComponentFlags) :
    Seg (fun st => componentFlagsPart st flags) 0 := by
  cases flags with
  | none => exact seg_congr (fun st => rfl) seg_id
  | some f =>
    exact seg_congr (fun st => rfl)
      (seg0_comp (seg0_comp (seg_writeIf f.isFinal "final ")
        (seg_writeIf f.isInner "inner ")) (seg_writeIf f.isOuter "outer "))

theorem seg_modelFlagsPart (flags : Option ModelFlags) :
    Seg (fun st => modelFlagsPart st flags) 0 := by
  cases flags with
  | none => exact seg_congr (fun st => rfl) seg_id
  | some f =>
    exact seg_congr (fun st => rfl)
      (seg0_comp (seg0_comp (seg0_comp (seg_writeIf f.isFinal "final ")
        (seg_writeIf f.isEncapsulated "encapsulated "))
        (seg_writeIf f.isPartial "partial "))
        (seg_writeIf f.isReplaceable "replaceable "))

theorem seg_compValuePart (value : Option Value) (initEmpty : Bool) :
    Seg (fun st => compValuePart st value initEmpty) 0 := by
  cases value with
  | none => exact seg_congr (fun st => rfl) seg_id
  | some v =>
    exact seg_congr (fun st => rfl)
      (seg0_comp (seg_write _ false) (seg_write (pyStr v) false))

theorem oseg_visitComponent (c : ComponentData) :
    OSeg (fun st => visitComponent st c) 0 := by
  have hPre : Seg (fun st =>
      (writeIf (((writeOptText (writeOptText (writeOptText
        (componentFlagsPart (st.write "" true) c.flags)
        (c.flux.map (fun fl => fl.value ++ " ")))
        (c.variability.map (fun vb => vb.value ++ " ")))
        (c.causality.map (fun ca => ca.value ++ " "))).write c.type false))
        (!c.subscripts.isEmpty)
        ("[" ++ pyStrJoin "," c.subscripts ++ "]")).write (" " ++ c.ident) false) 0 :=
    seg0_comp (seg0_comp (seg0_comp (seg0_comp (seg0_comp (seg0_comp
      (seg0_comp (seg_write "" true) (seg_componentFlagsPart c.flags))
      (seg_writeOptText _)) (seg_writeOptText _)) (seg_writeOptText _))
      (seg_write c.type false)) (seg_writeIf _ _)) (seg_write _ false)
  have hInit : OSeg (fun st => if c.init.isEmpty then some st
      else writeKVDict st "" c.init) 0 := by
    by_cases hI : c.init.isEmpty
    · exact oseg_congr (fun st => by rw [if_pos hI]) oseg_pure
    · exact oseg_congr (fun st => by rw [if_neg hI]) (oseg_writeKVDict "" c.init)
  have hK : OSeg (fun st =>
      (match c.constraint with
       | Option.some _ => Option.none
       | Option.none =>
         (optAnnoPart (writeOptText st (c.descr.map (fun d => " \"" ++ d ++ "\"")))
           c.anno).map (fun st => st.print ";" false)) : PP → Option PP) 0 := by
    cases c.constraint with
    | some u => exact oseg_congr (fun st => rfl) (oseg_none 0)
    | none =>
      exact oseg_congr (fun st => rfl)
        (oseg0_pre (seg_writeOptText _)
          (oseg0_map (oseg_optAnnoPart c.anno) (seg_print ";" false)))
  exact oseg_congr (fun st => rfl)
    (oseg0_pre hPre (oseg0_bind hInit
      (oseg0_pre (seg0_comp (seg_compValuePart c.value c.init.isEmpty)
        (seg_writeOptText _)) hK)))

theorem oseg_visitEquation (e : EquationData) :
    OSeg (fun st => visitEquation st e) 0 :=
  oseg_congr (fun _ => rfl)
    (oseg0_pre (seg0_comp (seg_write _ true) (seg_writeOptText _))
      (oseg0_map (oseg_optAnnoPart e.anno) (seg_print ";" false)))

theorem oseg_visitAlgorithm (a : AlgorithmData) :
    OSeg (fun st => visitAlgorithm st a) 0 :=
  oseg_congr (fun _ => rfl)
    (oseg0_pre (seg0_comp (seg_write _ true) (seg_writeOptText _))
      (oseg0_map (oseg_algAnnoPart a.anno) (seg_print ";" false)))

theorem oseg_visitConnect (c : ConnectData) :
    OSeg (fun st => visitConnect st c) 0 :=
  oseg_congr (fun _ => rfl)
    (oseg0_pre (seg0_comp (seg_write _ true) (seg_writeOptText _))
      (oseg0_map (oseg_optAnnoPart c.anno) (seg_print ";" false)))

theorem seg_visitText (t : TextData) : Seg (fun st => visitText st t) 0 := by
  rcases t with ⟨lines, b⟩
  induction lines with
  | nil => exact seg_congr (fun st => rfl) seg_id
  | cons line rest ihl =>
    exact seg_congr (fun st => rfl)
      (seg0_comp (seg_print line b) ihl)

theorem seg_visitWithin (w : WithinData) : Seg (fun st => visitWithin st w) 0 := by
  rcases w with ⟨_ | n⟩
  · exact seg_congr (fun st => rfl) (seg_print "within;" true)
  · exact seg_congr (fun st => rfl) (seg_print _ true)

theorem oseg_visitNode (n : Node) : OSeg (fun st => visitNode st n) 0 := by
  cases n with
  | component c => exact oseg_congr (fun st => rfl) (oseg_visitComponent c)
  | equation e => exact oseg_congr (fun st => rfl) (oseg_visitEquation e)
  | algorithm a => exact oseg_congr (fun st => rfl) (oseg_visitAlgorithm a)
  | connect c => exact oseg_congr (fun st => rfl) (oseg_visitConnect c)
  | extends_ name => exact oseg_congr (fun st => rfl) (oseg_some (seg_print _ true))
  | text t => exact oseg_congr (fun st => rfl) (oseg_some (seg_visitText t))
  | qualifiedImport name => exact oseg_congr (fun st => rfl) (oseg_some (seg_print _ true))
  | multiImport path names => exact oseg_congr (fun st => rfl) (oseg_some (seg_print _ true))
  | namedImport short long => exact oseg_congr (fun st => rfl) (oseg_some (seg_print _ true))
  | within w => exact oseg_congr (fun st => rfl) (oseg_some (seg_visitWithin w))
  | str s => exact oseg_congr (fun st => rfl) (oseg_some (seg_write s false))

theorem oseg_visitList (l : List Node) : OSeg (fun st => visitList st l) 0 := by
  induction l with
  | nil => exact oseg_congr (fun st => rfl) oseg_pure
  | cons n rest ihl =>
    exact oseg_congr (fun st => rfl) (oseg0_bind (oseg_visitNode n) ihl)

theorem oseg_visitSection (keyword : String) (entries : List Node) :
    OSeg (fun st => visitSection st keyword entries) 0 := by
  by_cases h : entries.isEmpty
  · exact oseg_congr (fun st => by rw [visitSection, if_pos h]) oseg_pure
  · refine oseg_congr (fun st => by rw [visitSection, if_neg h]) (oseg_cast ?_
      (oseg_pre (seg_comp (seg_comp seg_shiftDown (seg_print keyword true)) seg_shiftUp)
        (oseg_visitList entries)))
    norm_num

theorem seg_modelWithinPart (w : Option WithinData) :
    Seg (fun st => modelWithinPart st w) 0 := by
  cases w with
  | none => exact seg_congr (fun st => rfl) seg_id
  | some wd => exact seg_congr (fun st => rfl) (seg_visitWithin wd)

theorem seg_modelHeaderPart (ident : String) (descr : Option String) :
    Seg (fun st => modelHeaderPart st ident descr) 0 := by
  cases descr with
  | none => exact seg_congr (fun st => rfl) (seg_print _ true)
  | some d => exact seg_congr (fun st => rfl) (seg_print _ true)

theorem oseg_modelAnnoPart (a : List (String × Value)) :
    OSeg (fun st => modelAnnoPart st a) 0 := by
  by_cases h : a.isEmpty
  · exact oseg_congr (fun st => by rw [modelAnnoPart, if_pos h]) oseg_pure
  · exact oseg_congr (fun st => by rw [modelAnnoPart, if_neg h])
      (oseg0_map (oseg_visitAnnot a) (seg_print ";" false))

theorem oseg_visitModel (m : ModelData) : OSeg (fun st => visitModel st m) 0 := by
  refine oseg_congr (fun st => rfl) (oseg_cast ?_
    (oseg_pre (seg_comp (seg_comp (seg_comp (seg_modelWithinPart m.within)
        (seg_modelFlagsPart m.flags)) (seg_modelHeaderPart m.ident m.descr))
        seg_shiftUp)
      (oseg_bind (oseg_visitList m.publicSection)
        (oseg_bind (oseg_visitSection "protected" m.protectedSection)
          (oseg_bind (oseg_visitSection "initial equation" m.initialEquations)
            (oseg_bind (oseg_visitSection "initial algorithm" m.initialAlgorithms)
              (oseg_bind (oseg_visitSection "equation" m.equations)
                (oseg_bind (oseg_visitSection "algorithm" m.algorithms)
                  (oseg_map (oseg_modelAnnoPart m.anno)
                    (seg_comp seg_shiftDown (seg_print _ true)))))))))))
  norm_num

theorem oseg_visitRoot (o : Root) : OSeg (fun st => visitRoot st o) 0 := by
  cases o with
  | node n => exact oseg_congr (fun st => rfl) (oseg_visitNode n)
  | model m => exact oseg_congr (fun st => rfl) (oseg_visitModel m)

/-- Unpacked form of an `OSeg` fact against the canonical state: a run
from `st` and the canonical run at `st`'s indentation unit and depth
either both fail, or both succeed with the canonical text appended to
`st`'s stream and the indent depth restored. -/
theorem oseg_canon {f : PP → Option PP} (hf : OSeg f 0) (st : PP) :
    (f st = Option.none ∧ f (canonPP st.indentation st.indent) = Option.none) ∨
    (∃ r r0, f st = some r ∧ f (canonPP st.indentation st.indent) = some r0 ∧
      r.stream = st.stream ++ r0.stream ∧
      r.indentation = st.indentation ∧ r.indent = st.indent) := by
  rcases hf st (canonPP st.indentation st.indent) rfl rfl with
    ⟨h1, h2⟩ | ⟨ra, rb, t, h1, h2, ia, ib, ja, jb, sa, sb⟩
  · exact Or.inl ⟨h1, h2⟩
  · refine Or.inr ⟨ra, rb, h1, h2, ?_, ia, by omega⟩
    rw [sa, sb]
    show st.stream ++ t = st.stream ++ ("" ++ t)
    rw [String.empty_append]

theorem joinLines_cons (pad t : String) {rest : List String} (h : rest ≠ []) :
    joinLines pad (t :: rest) = pad ++ t ++ ",\n" ++ joinLines pad rest := by
  cases rest with
  | nil => exact absurd rfl h
  | cons x xs => rfl

/-- Running the multi-line entry loop of `write_key_value` over a
non-empty entry list appends exactly the `joinLines` text of the
entry renderings at the current depth. -/
theorem wkvEntries_run (l : List (String × Value)) : ∀ st : PP, l ≠ [] →
    (wkvEntries st l = Option.none ∧
      emitAll st.indentation st.indent l = Option.none) ∨
    (∃ r ts, wkvEntries st l = some r ∧
      emitAll st.indentation st.indent l = some ts ∧ ts ≠ [] ∧
      r.stream = st.stream ++
        joinLines (pyStrMul st.indent st.indentation) ts ∧
      r.indentation = st.indentation ∧ r.indent = st.indent) := by
  induction l with
  | nil => intro st hne; exact absurd rfl hne
  | cons hd tl ihl =>
    intro st _
    obtain ⟨k, v⟩ := hd
    rcases oseg_canon (oseg_writeKeyValue k v) (st.write "" true) with
      ⟨h1, h2⟩ | ⟨r, r0, h1, h2, hs, hi1, hi2⟩
    · -- first entry fails
      have h2' : writeKeyValue (canonPP st.indentation st.indent) k v =
          Option.none := h2
      have hkv : emitKV st.indentation st.indent k v = Option.none := by
        show (writeKeyValue (canonPP st.indentation st.indent) k v).map _ =
          Option.none
        rw [h2']; rfl
      cases tl with
      | nil =>
        refine Or.inl ⟨h1, ?_⟩
        show (emitKV st.indentation st.indent k v).bind _ = Option.none
        rw [hkv]; rfl
      | cons hd2 tl2 =>
        refine Or.inl ⟨?_, ?_⟩
        · show (writeKeyValue (st.write "" true) k v).bind _ = Option.none
          rw [h1]; rfl
        · show (emitKV st.indentation st.indent k v).bind _ = Option.none
          rw [hkv]; rfl
    · -- first entry emits r0.stream
      have h2' : writeKeyValue (canonPP st.indentation st.indent) k v =
          some r0 := h2
      have hwst : (st.write "" true).stream =
          st.stream ++ pyStrMul st.indent st.indentation := by
        show st.stream ++ (pyStrMul st.indent st.indentation ++ "") = _
        rw [String.append_empty]
      have hkv : emitKV st.indentation st.indent k v = some r0.stream := by
        show (writeKeyValue (canonPP st.indentation st.indent) k v).map _ = _
        rw [h2']; rfl
      cases tl with
      | nil =>
        refine Or.inr ⟨r, [r0.stream], h1, ?_, by simp, ?_, hi1, hi2⟩
        · show (emitKV st.indentation st.indent k v).bind _ = _
          rw [hkv]; rfl
        · rw [hs, hwst, String.append_assoc]
          rfl
      | cons hd2 tl2 =>
        have hlhs : wkvEntries st ((k, v) :: hd2 :: tl2) =
            wkvEntries (r.print "," false) (hd2 :: tl2) := by
          show (writeKeyValue (st.write "" true) k v).bind _ = _
          rw [h1]
          rfl
        have hst' : (r.print "," false).stream = r.stream ++ ",\n" := rfl
        have hii1 : (r.print "," false).indentation = st.indentation := hi1
        have hii2 : (r.print "," false).indent = st.indent := hi2
        rcases ihl (r.print "," false) (by simp) with
          ⟨g1, g2⟩ | ⟨r2, ts2, g1, g2, gne, gs, gi1, gi2⟩
        · refine Or.inl ⟨by rw [hlhs]; exact g1, ?_⟩
          rw [hii1, hii2] at g2
          show (emitKV st.indentation st.indent k v).bind _ = Option.none
          rw [hkv]
          show ((emitAll st.indentation st.indent (hd2 :: tl2)).map _) = Option.none
          rw [g2]; rfl
        · rw [hii1, hii2] at g2
          refine Or.inr ⟨r2, r0.stream :: ts2, by rw [hlhs]; exact g1, ?_,
            by simp, ?_, gi1.trans hii1, by rw [gi2]; exact hii2⟩
          · show (emitKV st.indentation st.indent k v).bind _ = _
            rw [hkv]
            show ((emitAll st.indentation st.indent (hd2 :: tl2)).map _) = _
            rw [g2]; rfl
          · rw [joinLines_cons _ _ gne, gs, hii1, hii2, hst', hs, hwst]
            simp [String.append_assoc]

/-- Claim C1: `write_key_value` renders a modification map (a dict value
attached to a key) with the 0 / 1 / 2 / more-than-2 arity-dependent
layout of `modMapLayout`, appended to whatever is already on the
stream. -/
theorem write_key_value_mod_map_layout (st : PP) (key : String)
    (entries : List (String × Value)) :
    (writeKeyValue st key (Value.dict entries)).map (fun r => r.stream) =
      (modMapLayout st.indentation st.indent key entries).map
        (fun t => st.stream ++ t) := by
  rcases entries with _ | ⟨⟨k1, v1⟩, _ | ⟨⟨k2, v2⟩, _ | ⟨⟨k3, v3⟩, rest⟩⟩⟩
  · rfl
  · -- one entry: single-line (k=v)
    rcases oseg_canon (oseg_writeKeyValue k1 v1)
        ((st.write key false).write "(" false) with
      ⟨h1, h2⟩ | ⟨r, r0, h1, h2, hs, hi1, hi2⟩
    · have hkv : emitKV st.indentation st.indent k1 v1 = Option.none := by
        show (writeKeyValue (canonPP st.indentation st.indent) k1 v1).map _ = _
        rw [show writeKeyValue (canonPP st.indentation st.indent) k1 v1 =
          Option.none from h2]
        rfl
      show ((writeKeyValue ((st.write key false).write "(" false) k1 v1).map
          (fun r => r.write ")" false)).map (fun r => r.stream) =
        ((emitKV st.indentation st.indent k1 v1).map
          (fun t => key ++ "(" ++ t ++ ")")).map (fun t => st.stream ++ t)
      rw [h1, hkv]
      rfl
    · have hkv : emitKV st.indentation st.indent k1 v1 = some r0.stream := by
        show (writeKeyValue (canonPP st.indentation st.indent) k1 v1).map _ = _
        rw [show writeKeyValue (canonPP st.indentation st.indent) k1 v1 =
          some r0 from h2]
        rfl
      show ((writeKeyValue ((st.write key false).write "(" false) k1 v1).map
          (fun r => r.write ")" false)).map (fun r => r.stream) =
        ((emitKV st.indentation st.indent k1 v1).map
          (fun t => key ++ "(" ++ t ++ ")")).map (fun t => st.stream ++ t)
      rw [h1, hkv]
      show some (r.stream ++ ")") = _
      rw [hs]
      show some ((((st.stream ++ key) ++ "(") ++ r0.stream) ++ ")") = _
      simp [String.append_assoc]
  · -- two entries: single-line (k1=v1, k2=v2)
    rcases oseg_canon (oseg_writeKeyValue k1 v1)
        ((st.write key false).write "(" false) with
      ⟨h1, h2⟩ | ⟨r, r0, h1, h2, hs, hi1, hi2⟩
    · have hkv : emitKV st.indentation st.indent k1 v1 = Option.none := by
        show (writeKeyValue (canonPP st.indentation st.indent) k1 v1).map _ = _
        rw [show writeKeyValue (canonPP st.indentation st.indent) k1 v1 =
          Option.none from h2]
        rfl
      show ((writeKeyValue ((st.write key false).write "(" false) k1 v1).bind
          (fun r => (writeKeyValue (r.write ", " false) k2 v2).map
            (fun r => r.write ")" false))).map (fun r => r.stream) =
        ((emitKV st.indentation st.indent k1 v1).bind (fun t1 =>
          (emitKV st.indentation st.indent k2 v2).map (fun t2 =>
            key ++ "(" ++ t1 ++ ", " ++ t2 ++ ")"))).map (fun t => st.stream ++ t)
      rw [h1, hkv]
      rfl
    · have hkv : emitKV st.indentation st.indent k1 v1 = some r0.stream := by
        show (writeKeyValue (canonPP st.indentation st.indent) k1 v1).map _ = _
        rw [show writeKeyValue (canonPP st.indentation st.indent) k1 v1 =
          some r0 from h2]
        rfl
      have hii1 : (r.write ", " false).indentation = st.indentation := hi1
      have hii2 : (r.write ", " false).indent = st.indent := hi2
      rcases oseg_canon (oseg_writeKeyValue k2 v2) (r.write ", " false) with
        ⟨g1, g2⟩ | ⟨q, q0, g1, g2, gs, gi1, gi2⟩
      · rw [hii1, hii2] at g2
        have hkv2 : emitKV st.indentation st.indent k2 v2 = Option.none := by
          show (writeKeyValue (canonPP st.indentation st.indent) k2 v2).map _ = _
          rw [g2]
          rfl
        show ((writeKeyValue ((st.write key false).write "(" false) k1 v1).bind
            (fun r => (writeKeyValue (r.write ", " false) k2 v2).map
              (fun r => r.write ")" false))).map (fun r => r.stream) =
          ((emitKV st.indentation st.indent k1 v1).bind (fun t1 =>
            (emitKV st.indentation st.indent k2 v2).map (fun t2 =>
              key ++ "(" ++ t1 ++ ", " ++ t2 ++ ")"))).map (fun t => st.stream ++ t)
        rw [h1, hkv]
        simp only [Option.some_bind]
        rw [g1, hkv2]
        rfl
      · rw [hii1, hii2] at g2
        have hkv2 : emitKV st.indentation st.indent k2 v2 = some q0.stream := by
          show (writeKeyValue (canonPP st.indentation st.indent) k2 v2).map _ = _
          rw [g2]
          rfl
        show ((writeKeyValue ((st.write key false).write "(" false) k1 v1).bind
            (fun r => (writeKeyValue (r.write ", " false) k2 v2).map
              (fun r => r.write ")" false))).map (fun r => r.stream) =
          ((emitKV st.indentation st.indent k1 v1).bind (fun t1 =>
            (emitKV st.indentation st.indent k2 v2).map (fun t2 =>
              key ++ "(" ++ t1 ++ ", " ++ t2 ++ ")"))).map (fun t => st.stream ++ t)
        rw [h1, hkv]
        simp only [Option.some_bind]
        rw [g1, hkv2]
        simp only [Option.map_some']
        have hqs : (q.write ")" false).stream = q.stream ++ ")" := rfl
        have hrs : (r.write ", " false).stream = r.stream ++ ", " := rfl
        rw [hqs, gs, hrs, hs]
        simp [PP.write, PP.outText, String.append_assoc]
  · -- three or more entries: multi-line layout
    rcases oseg_canon (oseg_writeKeyValue k1 v1)
        ((({ st.write key false with
            indent := (st.write key false).indent + 1 }).write "(\n" false).write
          "" true) with
      ⟨h1, h2⟩ | ⟨r, r0, h1, h2, hs, hi1, hi2⟩
    · have hkv : emitKV st.indentation (st.indent + 1) k1 v1 = Option.none := by
        show (writeKeyValue (canonPP st.indentation (st.indent + 1)) k1 v1).map _ = _
        rw [show writeKeyValue (canonPP st.indentation (st.indent + 1)) k1 v1 =
          Option.none from h2]
        rfl
      show ((writeKeyValue ((({ st.write key false with
            indent := (st.write key false).indent + 1 }).write "(\n" false).write
            "" true) k1 v1).bind (fun r =>
          (wkvEntries (r.print "," false) ((k2, v2) :: (k3, v3) :: rest)).map
            (fun r2 => ({ r2 with indent := r2.indent - 1 }).write ")" false))).map
          (fun r => r.stream) =
        ((((emitKV st.indentation (st.indent + 1) k1 v1).bind (fun t =>
          (emitAll st.indentation (st.indent + 1)
            ((k2, v2) :: (k3, v3) :: rest)).map (fun ts => t :: ts))).map
          (fun ts => key ++ "(\n" ++
            joinLines (pyStrMul (st.indent + 1) st.indentation) ts ++ ")")).map
          (fun t => st.stream ++ t))
      rw [h1, hkv]
      rfl
    · have hkv : emitKV st.indentation (st.indent + 1) k1 v1 = some r0.stream := by
        show (writeKeyValue (canonPP st.indentation (st.indent + 1)) k1 v1).map _ = _
        rw [show writeKeyValue (canonPP st.indentation (st.indent + 1)) k1 v1 =
          some r0 from h2]
        rfl
      have hii1 : (r.print "," false).indentation = st.indentation := hi1
      have hii2 : (r.print "," false).indent = st.indent + 1 := hi2
      rcases wkvEntries_run ((k2, v2) :: (k3, v3) :: rest) (r.print "," false)
          (by simp) with
        ⟨g1, g2⟩ | ⟨r2, ts2, g1, g2, gne, gs, gi1, gi2⟩
      · rw [hii1, hii2] at g2
        show ((writeKeyValue ((({ st.write key false with
              indent := (st.write key false).indent + 1 }).write "(\n" false).write
              "" true) k1 v1).bind (fun r =>
            (wkvEntries (r.print "," false) ((k2, v2) :: (k3, v3) :: rest)).map
              (fun r2 => ({ r2 with indent := r2.indent - 1 }).write ")" false))).map
            (fun r => r.stream) =
          ((((emitKV st.indentation (st.indent + 1) k1 v1).bind (fun t =>
            (emitAll st.indentation (st.indent + 1)
              ((k2, v2) :: (k3, v3) :: rest)).map (fun ts => t :: ts))).map
            (fun ts => key ++ "(\n" ++
              joinLines (pyStrMul (st.indent + 1) st.indentation) ts ++ ")")).map
            (fun t => st.stream ++ t))
        rw [h1, hkv]
        simp only [Option.some_bind]
        rw [g1, g2]
        rfl
      · rw [hii1, hii2] at g2 gs
        show ((writeKeyValue ((({ st.write key false with
              indent := (st.write key false).indent + 1 }).write "(\n" false).write
              "" true) k1 v1).bind (fun r =>
            (wkvEntries (r.print "," false) ((k2, v2) :: (k3, v3) :: rest)).map
              (fun r2 => ({ r2 with indent := r2.indent - 1 }).write ")" false))).map
            (fun r => r.stream) =
          ((((emitKV st.indentation (st.indent + 1) k1 v1).bind (fun t =>
            (emitAll st.indentation (st.indent + 1)
              ((k2, v2) :: (k3, v3) :: rest)).map (fun ts => t :: ts))).map
            (fun ts => key ++ "(\n" ++
              joinLines (pyStrMul (st.indent + 1) st.indentation) ts ++ ")")).map
            (fun t => st.stream ++ t))
        rw [h1, hkv]
        simp only [Option.some_bind]
        rw [g1, g2]
        simp only [Option.map_some']
        have hr2 : (({ r2 with indent := r2.indent - 1 }).write ")" false).stream =
          r2.stream ++ ")" := rfl
        have hBs : (r.print "," false).stream = r.stream ++ ",\n" := rfl
        rw [hr2, gs, hBs, hs, joinLines_cons _ _ gne]
        simp [PP.write, PP.outText, String.append_assoc]

/-- Claim C2 (amended): `write_annotation` has its own dict layout, and a
2-entry annotation tree renders multi-line — `(k1` value1 `,` line break,
then `k2` value2 at one deeper indentation, then `)` — not the
single-line 2-entry form of `write_key_value`.  Values render via the
engine's own `emitAnnot` at depth `i+1` (for scalars that text is
`=value`, so entries read `name=value`). -/
theorem write_annotation_two_entry_layout (st : PP) (k1 : String) (v1 : Value)
    (k2 : String) (v2 : Value) :
    (writeAnnotDict st [(k1, v1), (k2, v2)]).map (fun r => r.stream) =
      ((emitAnnot st.indentation (st.indent + 1) v1).bind (fun t1 =>
        (emitAnnot st.indentation (st.indent + 1) v2).map (fun t2 =>
          st.stream ++ "(" ++ k1 ++ t1 ++ ",\n" ++
            pyStrMul (st.indent + 1) st.indentation ++ k2 ++ t2 ++ ")"))) := by
  rcases oseg_canon (oseg_writeAnnot v1)
      (({ st.write "(" false with
          indent := (st.write "(" false).indent + 1 }).write k1 false) with
    ⟨h1, h2⟩ | ⟨r, r0, h1, h2, hs, hi1, hi2⟩
  · have hkv : emitAnnot st.indentation (st.indent + 1) v1 = Option.none := by
      show (writeAnnot (canonPP st.indentation (st.indent + 1)) v1).map _ = _
      rw [show writeAnnot (canonPP st.indentation (st.indent + 1)) v1 =
        Option.none from h2]
      rfl
    show ((writeAnnot (({ st.write "(" false with
          indent := (st.write "(" false).indent + 1 }).write k1 false) v1).bind
        (fun r => (waEntries (r.print "," false) [(k2, v2)]).map
          (fun r2 => ({ r2 with indent := r2.indent - 1 }).write ")" false))).map
        (fun r => r.stream) =
      ((emitAnnot st.indentation (st.indent + 1) v1).bind (fun t1 =>
        (emitAnnot st.indentation (st.indent + 1) v2).map (fun t2 =>
          st.stream ++ "(" ++ k1 ++ t1 ++ ",\n" ++
            pyStrMul (st.indent + 1) st.indentation ++ k2 ++ t2 ++ ")")))
    rw [h1, hkv]
    rfl
  · have hkv : emitAnnot st.indentation (st.indent + 1) v1 = some r0.stream := by
      show (writeAnnot (canonPP st.indentation (st.indent + 1)) v1).map _ = _
      rw [show writeAnnot (canonPP st.indentation (st.indent + 1)) v1 =
        some r0 from h2]
      rfl
    have hBi1 : ((r.print "," false).write k2 true).indentation =
      st.indentation := hi1
    have hBi2 : ((r.print "," false).write k2 true).indent = st.indent + 1 := hi2
    rcases oseg_canon (oseg_writeAnnot v2) ((r.print "," false).write k2 true) with
      ⟨g1, g2⟩ | ⟨q, q0, g1, g2, gs, gi1, gi2⟩
    · rw [hBi1, hBi2] at g2
      have hkv2 : emitAnnot st.indentation (st.indent + 1) v2 = Option.none := by
        show (writeAnnot (canonPP st.indentation (st.indent + 1)) v2).map _ = _
        rw [g2]
        rfl
      show ((writeAnnot (({ st.write "(" false with
            indent := (st.write "(" false).indent + 1 }).write k1 false) v1).bind
          (fun r => (waEntries (r.print "," false) [(k2, v2)]).map
            (fun r2 => ({ r2 with indent := r2.indent - 1 }).write ")" false))).map
          (fun r => r.stream) =
        ((emitAnnot st.indentation (st.indent + 1) v1).bind (fun t1 =>
          (emitAnnot st.indentation (st.indent + 1) v2).map (fun t2 =>
            st.stream ++ "(" ++ k1 ++ t1 ++ ",\n" ++
              pyStrMul (st.indent + 1) st.indentation ++ k2 ++ t2 ++ ")")))
      rw [h1, hkv]
      simp only [Option.some_bind]
      have hwa : waEntries (r.print "," false) [(k2, v2)] =
          writeAnnot ((r.print "," false).write k2 true) v2 := rfl
      rw [hwa, g1, hkv2]
      rfl
    · rw [hBi1, hBi2] at g2
      have hkv2 : emitAnnot st.indentation (st.indent + 1) v2 = some q0.stream := by
        show (writeAnnot (canonPP st.indentation (st.indent + 1)) v2).map _ = _
        rw [g2]
        rfl
      show ((writeAnnot (({ st.write "(" false with
            indent := (st.write "(" false).indent + 1 }).write k1 false) v1).bind
          (fun r => (waEntries (r.print "," false) [(k2, v2)]).map
            (fun r2 => ({ r2 with indent := r2.indent - 1 }).write ")" false))).map
          (fun r => r.stream) =
        ((emitAnnot st.indentation (st.indent + 1) v1).bind (fun t1 =>
          (emitAnnot st.indentation (st.indent + 1) v2).map (fun t2 =>
            st.stream ++ "(" ++ k1 ++ t1 ++ ",\n" ++
              pyStrMul (st.indent + 1) st.indentation ++ k2 ++ t2 ++ ")")))
      rw [h1, hkv]
      simp only [Option.some_bind]
      have hwa : waEntries (r.print "," false) [(k2, v2)] =
          writeAnnot ((r.print "," false).write k2 true) v2 := rfl
      rw [hwa, g1, hkv2]
      simp only [Option.map_some']
      have hq : (({ q with indent := q.indent - 1 }).write ")" false).stream =
        q.stream ++ ")" := rfl
      have hB : ((r.print "," false).write k2 true).stream =
        (r.stream ++ ",\n") ++ (pyStrMul r.indent r.indentation ++ k2) := rfl
      rw [hq, gs, hB, hs, hi1, hi2]
      simp [PP.write, PP.outText, String.append_assoc]

/-- Claim C2 counterexample: the 2-entry annotation tree
`{a: 1, b: 2}` renders as the multi-line `(a=1,\n  b=2)`, not as the
single-line `(a=1, b=2)` that the 2-entry modification-map layout of
`write_key_value` produces on the very same entries. -/
theorem write_annotation_two_entry_not_single_line :
    (writeAnnotDict (canonPP "  " 0)
        [("a", Value.integer 1), ("b", Value.integer 2)]).map
      (fun r => r.stream) = some "(a=1,\n  b=2)" ∧
    (writeAnnotDict (canonPP "  " 0)
        [("a", Value.integer 1), ("b", Value.integer 2)]).map
      (fun r => r.stream) ≠ some "(a=1, b=2)" ∧
    (writeKVDict (canonPP "  " 0) ""
        [("a", Value.integer 1), ("b", Value.integer 2)]).map
      (fun r => r.stream) = some "(a=1, b=2)" := by
  refine ⟨rfl, ?_, rfl⟩
  decide

/-- Claim C3: `add_component` with an identifier already registered in
the Document's component registry fails with the duplicate-identifier
`KeyError`, returning the model unchanged — the check fires before any
other processing or mutation, so the registry and all six sections are
untouched. -/
theorem add_component_duplicate (m : ModelData) (typ ident : String)
    (value : Option Value) (init : Option (List (String × Value)))
    (protectedArg parameterArg : Bool) (flagsArg : FlagsArg) (kw : AddCompKw)
    (h : ident ∈ m.components.map Prod.fst) :
    addComponent m typ ident value init protectedArg parameterArg flagsArg kw =
      (m, .error ("component with ident " ++ ident ++ " already exists")) := by
  unfold addComponent
  rw [if_pos h]

theorem add_component_duplicate_witness :
    addComponent
      { mkModel "M" Option.none Option.none Option.none Option.none with
        components := [("x", { type := "Real", ident := "x" })] }
      "Real" "x" Option.none Option.none false false FlagsArg.none {} =
      ({ mkModel "M" Option.none Option.none Option.none Option.none with
          components := [("x", { type := "Real", ident := "x" })] },
        .error ("component with ident " ++ "x" ++ " already exists")) :=
  add_component_duplicate
    { mkModel "M" Option.none Option.none Option.none Option.none with
      components := [("x", { type := "Real", ident := "x" })] }
    "Real" "x" Option.none Option.none false false FlagsArg.none {}
    (by decide)

/-- Claim C4: rendering is deterministic and pure.  Two render calls
over the same tree from any two printer states agreeing on the
indentation unit and indent depth either both fail or append the
byte-identical text `t` to their streams — in particular two renders
with the same options produce identical output.  The input tree is a
plain value the renderer never returns modified, so a render call
cannot mutate it. -/
theorem render_deterministic_pure (o : Root) (a b : PP)
    (h1 : a.indentation = b.indentation) (h2 : a.indent = b.indent) :
    (visitRoot a o = Option.none ∧ visitRoot b o = Option.none) ∨
    (∃ ra rb t, visitRoot a o = some ra ∧ visitRoot b o = some rb ∧
      ra.stream = a.stream ++ t ∧ rb.stream = b.stream ++ t) := by
  rcases oseg_visitRoot o a b h1 h2 with
    ⟨x1, x2⟩ | ⟨ra, rb, t, x1, x2, _, _, _, _, s1, s2⟩
  · exact Or.inl ⟨x1, x2⟩
  · exact Or.inr ⟨ra, rb, t, x1, x2, s1, s2⟩

theorem render_deterministic_pure_witness :
    (visitRoot (canonPP "  " 0)
        (Root.model (mkModel "Unnamed" Option.none Option.none Option.none
          Option.none)) = Option.none ∧
      visitRoot ⟨"// prelude\n", "  ", 80, 11, 0, 0⟩
        (Root.model (mkModel "Unnamed" Option.none Option.none Option.none
          Option.none)) = Option.none) ∨
    (∃ ra rb t,
      visitRoot (canonPP "  " 0)
        (Root.model (mkModel "Unnamed" Option.none Option.none Option.none
          Option.none)) = some ra ∧
      visitRoot ⟨"// prelude\n", "  ", 80, 11, 0, 0⟩
        (Root.model (mkModel "Unnamed" Option.none Option.none Option.none
          Option.none)) = some rb ∧
      ra.stream = (canonPP "  " 0).stream ++ t ∧
      rb.stream = (PP.mk "// prelude\n" "  " 80 11 0 0).stream ++ t) :=
  render_deterministic_pure
    (Root.model (mkModel "Unnamed" Option.none Option.none Option.none
      Option.none))
    (canonPP "  " 0) ⟨"// prelude\n", "  ", 80, 11, 0, 0⟩ rfl rfl

/-- Claim C6: `add_connect` with exactly two reference arguments stores
both as the connection's two references verbatim; with exactly four it
composes the dotted strings `owner1.port1` and `owner2.port2`, taking a
`Component`'s `ident` as the owner name; any other extra-argument count
fails with the invalid-arity `ValueError` and leaves the model
unchanged.  Successful calls append the connect node to the `equation`
section. -/
theorem add_connect_arity :
    (∀ (m : ModelData) (r1 r2 : ConnRef) (d : Option String),
      addConnect m r1 r2 [] d =
        ({ m with equations := m.equations ++
            [Node.connect ⟨r1, r2, d, []⟩] }, .ok ⟨r1, r2, d, []⟩)) ∧
    (∀ (m : ModelData) (r1 r2 a1 p2 : ConnRef) (d : Option String),
      addConnect m r1 r2 [a1, p2] d =
        ({ m with equations := m.equations ++
            [Node.connect ⟨.str (r1.ownerName ++ "." ++ r2.text),
              .str (a1.ownerName ++ "." ++ p2.text), d, []⟩] },
          .ok ⟨.str (r1.ownerName ++ "." ++ r2.text),
            .str (a1.ownerName ++ "." ++ p2.text), d, []⟩)) ∧
    (∀ (m : ModelData) (r1 r2 : ConnRef) (args : List ConnRef)
        (d : Option String), args.length ≠ 0 → args.length ≠ 2 →
      addConnect m r1 r2 args d = (m, .error "Too many or too few args.")) := by
  refine ⟨fun m r1 r2 d => rfl, fun m r1 r2 a1 p2 d => rfl, ?_⟩
  intro m r1 r2 args d h0 h2
  rcases args with _ | ⟨a, _ | ⟨b, _ | ⟨c, rest⟩⟩⟩
  · exact absurd rfl h0
  · rfl
  · exact absurd rfl h2
  · rfl

theorem add_connect_arity_witness :
    addConnect (mkModel "M" Option.none Option.none Option.none Option.none)
      (ConnRef.str "a") (ConnRef.str "b") [ConnRef.str "c"] Option.none =
      ((mkModel "M" Option.none Option.none Option.none Option.none),
        .error "Too many or too few args.") :=
  add_connect_arity.2.2
    (mkModel "M" Option.none Option.none Option.none Option.none)
    (ConnRef.str "a") (ConnRef.str "b") [ConnRef.str "c"] Option.none
    (by decide) (by decide)

/-- Claim C7: `Model.add` with one of the six section names appends the
node to exactly that section (the other five are untouched by the
record update); any other name raises the unknown-section `ValueError`
before any mutation, returning the model unchanged. -/
theorem model_add_sections :
    (∀ (m : ModelData) (x : Node), m.add x "public" =
      ({ m with publicSection := m.publicSection ++ [x] }, .ok x)) ∧
    (∀ (m : ModelData) (x : Node), m.add x "protected" =
      ({ m with protectedSection := m.protectedSection ++ [x] }, .ok x)) ∧
    (∀ (m : ModelData) (x : Node), m.add x "initial equation" =
      ({ m with initialEquations := m.initialEquations ++ [x] }, .ok x)) ∧
    (∀ (m : ModelData) (x : Node), m.add x "initial algorithm" =
      ({ m with initialAlgorithms := m.initialAlgorithms ++ [x] }, .ok x)) ∧
    (∀ (m : ModelData) (x : Node), m.add x "equation" =
      ({ m with equations := m.equations ++ [x] }, .ok x)) ∧
    (∀ (m : ModelData) (x : Node), m.add x "algorithm" =
      ({ m with algorithms := m.algorithms ++ [x] }, .ok x)) ∧
    (∀ (m : ModelData) (x : Node) (w : String),
      w ∉ ["public", "protected", "initial equation", "initial algorithm",
        "equation", "algorithm"] →
      m.add x w = (m, .error ("where=" ++ w ++ " unknown"))) := by
  refine ⟨fun m x => rfl, fun m x => rfl, fun m x => rfl, fun m x => rfl,
    fun m x => rfl, fun m x => rfl, ?_⟩
  intro m x w h
  simp only [List.mem_cons, List.not_mem_nil, or_false, not_or] at h
  obtain ⟨h1, h2, h3, h4, h5, h6⟩ := h
  unfold ModelData.add
  rw [if_neg h1, if_neg h2, if_neg h3, if_neg h4, if_neg h5, if_neg h6]

theorem model_add_sections_witness :
    (mkModel "M" Option.none Option.none Option.none Option.none).add
      (Node.str "x") "junk" =
      ((mkModel "M" Option.none Option.none Option.none Option.none),
        .error "where=junk unknown") :=
  model_add_sections.2.2.2.2.2.2
    (mkModel "M" Option.none Option.none Option.none Option.none)
    (Node.str "x") "junk" (by decide)

/-- Claim C8: the empty default Document named `Unnamed` renders exactly
`model Unnamed\nend Unnamed;\n` under the default options. -/
theorem default_model_renders :
    pprintString (Root.model (mkModel "Unnamed" Option.none Option.none
      Option.none Option.none)) "  " 80 0 =
      some "model Unnamed\nend Unnamed;\n" := rfl

/-- Claim C9: constructing an `Assign` with an explicit literal type but
without the `Redeclare` flag always fails one of the two asserts of
`Assign.__init__` (missing flags, or flags without `Redeclare`); with
the `Redeclare` flag present the construction succeeds. -/
theorem assign_redeclare_assert :
    (∀ (value : Option Value) (init : Option (List (String × Value)))
        (fmt : String) (descr : Option String)
        (anno : Option (List (String × Value))) (t : String),
      mkAssign value init fmt Option.none descr anno (some t) =
        .error "assert flags is not None") ∧
    (∀ (value : Option Value) (init : Option (List (String × Value)))
        (fmt : String) (f : AssignFlags) (descr : Option String)
        (anno : Option (List (String × Value))) (t : String),
      f.isRedeclare = false →
      mkAssign value init fmt (some f) descr anno (some t) =
        .error "component type must be known when redeclaring") ∧
    (∀ (value : Option Value) (init : Option (List (String × Value)))
        (fmt : String) (f : AssignFlags) (descr : Option String)
        (anno : Option (List (String × Value))) (t : String),
      f.isRedeclare = true →
      mkAssign value init fmt (some f) descr anno (some t) =
        .ok (.assign value (init.getD []) fmt (some f) descr (anno.getD [])
          (some t))) := by
  refine ⟨fun _ _ _ _ _ _ => rfl, ?_, ?_⟩
  · intro value init fmt f descr anno t h
    simp [mkAssign, h]
  · intro value init fmt f descr anno t h
    simp [mkAssign, h]

theorem assign_redeclare_assert_witness :
    mkAssign Option.none Option.none "" (some { isRedeclare := false })
        Option.none Option.none (some "T") =
      .error "component type must be known when redeclaring" ∧
    mkAssign Option.none Option.none "" (some { isRedeclare := true })
        Option.none Option.none (some "T") =
      .ok (.assign Option.none [] "" (some { isRedeclare := true })
        Option.none [] (some "T")) :=
  ⟨assign_redeclare_assert.2.1 Option.none Option.none ""
      { isRedeclare := false } Option.none Option.none "T" rfl,
    assign_redeclare_assert.2.2 Option.none Option.none ""
      { isRedeclare := true } Option.none Option.none "T" rfl⟩

/-- Claim C10: `pprint` with `stream=None` returns the complete rendered
text; with a stream it writes exactly that same text to the stream and
returns `None` — the text is never both returned and partially
written. -/
theorem pprint_stream_matches_return (o : Root) (ind : String) (w si : Int)
    (s t : String)
    (h : pprint o Option.none ind w si = some ⟨some t, Option.none⟩) :
    pprint o (some s) ind w si = some ⟨Option.none, some (s ++ t)⟩ := by
  rcases oseg_visitRoot o ⟨s, ind, w, 0, 0, si⟩ ⟨"", ind, w, 0, 0, si⟩ rfl rfl with
    ⟨x1, x2⟩ | ⟨ra, rb, t', x1, x2, _, _, _, _, s1, s2⟩
  · exfalso
    have x2' : visitRoot ⟨"", ind, w, 0, 0, si⟩ o = Option.none := x2
    have hnone : pprint o Option.none ind w si = Option.none := by
      show (visitRoot ⟨"", ind, w, 0, 0, si⟩ o).map _ = _
      rw [x2']
      rfl
    rw [hnone] at h
    exact Option.noConfusion h
  · have x1' : visitRoot ⟨s, ind, w, 0, 0, si⟩ o = some ra := x1
    have x2' : visitRoot ⟨"", ind, w, 0, 0, si⟩ o = some rb := x2
    have hsome : pprint o Option.none ind w si = some ⟨some rb.stream, Option.none⟩ := by
      show (visitRoot ⟨"", ind, w, 0, 0, si⟩ o).map _ = _
      rw [x2']
      rfl
    rw [hsome] at h
    simp only [Option.some.injEq, PPrintResult.mk.injEq] at h
    have ht : t' = t := by
      have h' : rb.stream = t := by
        have := h.1
        simpa using this
      rw [s2] at h'
      rw [← h']
      exact (String.empty_append t').symm
    show (visitRoot ⟨s, ind, w, 0, 0, si⟩ o).map _ = _
    rw [x1']
    have hra : ra.stream = s ++ t := by rw [s1, ht]
    simp [hra]

theorem pprint_stream_matches_return_witness :
    pprint (Root.model (mkModel "Unnamed" Option.none Option.none Option.none
        Option.none)) (some "// file\n") "  " 80 0 =
      some ⟨Option.none, some ("// file\n" ++ "model Unnamed\nend Unnamed;\n")⟩ :=
  pprint_stream_matches_return
    (Root.model (mkModel "Unnamed" Option.none Option.none Option.none
      Option.none)) "  " 80 0 "// file\n" "model Unnamed\nend Unnamed;\n" rfl

theorem write_write (st : PP) (s1 s2 : String) :
    (st.write s1 false).write s2 false = st.write (s1 ++ s2) false := by
  simp [PP.write, PP.outText, String.append_assoc, String.length_append,
    Nat.add_assoc]

theorem write_empty (st : PP) : st.write "" false = st := by
  simp [PP.write, PP.outText, String.append_empty]

/-- Claim C5: flags render in a fixed textual order independent of how
they were combined.  A Document's flag segment is exactly the canonical
`final encapsulated partial replaceable` text of the stored set, and a
Declaration's is exactly the canonical `final inner outer` text; both
texts are invariant under the order flag sets were or-ed together in
the builder; and the `Replaceable` member, though storable on a
Declaration, never affects that Declaration's flag segment. -/
theorem flag_render_order :
    (∀ (st : PP) (f : ModelFlags),
      modelFlagsPart st (some f) = st.write (modelFlagText f) false) ∧
    (∀ f g : ModelFlags, modelFlagText (f.union g) = modelFlagText (g.union f)) ∧
    (∀ (st : PP) (f : ComponentFlags),
      componentFlagsPart st (some f) = st.write (componentFlagText f) false) ∧
    (∀ f g : ComponentFlags,
      componentFlagText (f.union g) = componentFlagText (g.union f)) ∧
    (∀ (st : PP) (f : ComponentFlags) (b : Bool),
      componentFlagsPart st (some { f with isReplaceable := b }) =
        componentFlagsPart st (some f)) := by
  refine ⟨?_, ?_, ?_, ?_, ?_⟩
  · intro st f
    rcases f with ⟨b1, b2, b3, b4⟩
    cases b1 <;> cases b2 <;> cases b3 <;> cases b4 <;>
      simp [modelFlagsPart, writeIf, modelFlagText, write_write, write_empty,
        String.empty_append, String.append_empty]
  · intro f g
    rcases f with ⟨a1, a2, a3, a4⟩
    rcases g with ⟨c1, c2, c3, c4⟩
    simp only [ModelFlags.union]
    rw [Bool.or_comm a1 c1, Bool.or_comm a2 c2, Bool.or_comm a3 c3,
      Bool.or_comm a4 c4]
  · intro st f
    rcases f with ⟨b1, b2, b3, b4⟩
    cases b1 <;> cases b2 <;> cases b3 <;>
      simp [componentFlagsPart, writeIf, componentFlagText, write_write,
        write_empty, String.empty_append, String.append_empty]
  · intro f g
    rcases f with ⟨a1, a2, a3, a4⟩
    rcases g with ⟨c1, c2, c3, c4⟩
    simp only [ComponentFlags.union]
    rw [Bool.or_comm a1 c1, Bool.or_comm a2 c2, Bool.or_comm a3 c3,
      Bool.or_comm a4 c4]
  · intro st f b
    rcases f with ⟨b1, b2, b3, b4⟩
    rfl

end Modelipy
